import Mathlib

/-!
# EA076 datalogger: a shallow embedding of `src/main.c`

The sketch is one C file for an 8-bit AVR board.  Its state is a handful of
global `int` flags, one global line buffer, an external I2C EEPROM and the
serial port.  The embedding keeps the names of the source.

Conventions.

* `char`, `byte` and `unsigned char` values are natural numbers; a value is
  reduced modulo 256 wherever the source converts to a one-byte type.
* `int` values are integers (the flags only ever hold the constants 0..4).
* A `char *` is a function from an index to the character stored there.
* The EEPROM is a function from an address to the byte stored there.  The bus
  transaction always completes; the settling `delay` calls are not modelled.
* The serial port is the list of the byte strings written to it, oldest first.
* The LED is the list of the levels written to `ledPin`, oldest first.
* Values the source reads without having written them (the local `out_buffer`,
  the local `x` of the GET branch) and values that come from the hardware
  (the key, the analog readings) are inputs of `loop`.
-/

namespace Datalogger

/-! ## Characters and C strings -/

/-- Character codes of a string literal. -/
def ascii (s : String) : List Nat := s.toList.map Char.toNat

/-- A string literal as a `char *`: its characters followed by NUL. -/
def lit (s : String) : Nat → Nat := fun i => (ascii s).getD i 0

/-- The characters a `char *` holds before its first NUL, reading at most
`fuel` characters from index `i`. -/
def c_str (p : Nat → Nat) : Nat → Nat → List Nat
  | 0, _ => []
  | fuel + 1, i => if p i = 0 then [] else p i :: c_str p fuel (i + 1)

/-! ## Line buffer (`src/main.c` lines 42-92) -/

def MAX_BUFFER_SIZE : Nat := 30

structure serial_buffer where
  data : Nat → Nat
  tam_buffer : Nat

/-- `str_cmp`, the loop from index `i` with `k` iterations left. -/
def str_cmp_from (s1 s2 : Nat → Nat) : Nat → Nat → Int
  | 0, _ => 1
  | k + 1, i =>
    if s1 i ≠ s2 i then 0
    else if s1 i = 0 then 1
    else str_cmp_from s1 s2 k (i + 1)

/-- `int str_cmp(char *s1, char *s2, int len)`. -/
def str_cmp (s1 s2 : Nat → Nat) (len : Nat) : Int := str_cmp_from s1 s2 len 0

/-- `void buffer_clean()`. -/
def buffer_clean (Buffer : serial_buffer) : serial_buffer :=
  { Buffer with tam_buffer := 0 }

/-- `int buffer_add(char c_in)`: the new buffer and the returned value. -/
def buffer_add (Buffer : serial_buffer) (c_in : Nat) : serial_buffer × Int :=
  if Buffer.tam_buffer < MAX_BUFFER_SIZE then
    ({ data := fun i => if i = Buffer.tam_buffer then c_in % 256 else Buffer.data i,
       tam_buffer := Buffer.tam_buffer + 1 }, 1)
  else (Buffer, 0)

/-- Calls `buffer_add` on each character in order; the final buffer and the
returned values, in call order. -/
def buffer_add_seq (Buffer : serial_buffer) : List Nat → serial_buffer × List Int
  | [] => (Buffer, [])
  | c :: cs =>
    let r := buffer_add Buffer c
    let rest := buffer_add_seq r.1 cs
    (rest.1, r.2 :: rest.2)

/-! ## EEPROM and the stack file system (`src/main.c` lines 144-187) -/

/-- `unsigned char EEPROM_read(unsigned char address)`. -/
def EEPROM_read (mem : Nat → Nat) (address : Nat) : Nat :=
  mem (address % 256) % 256

/-- `EEPROM_write(unsigned char address, unsigned char data)`: the new memory
(the function always returns 0). -/
def EEPROM_write (mem : Nat → Nat) (address data : Nat) : Nat → Nat :=
  fun a => if a = address % 256 then data % 256 else mem a

/-- `filesystem_write(unsigned char data)`: the new memory (the function
always returns 0).  `n` is an `unsigned char`, so `n++` wraps at 256. -/
def filesystem_write (mem : Nat → Nat) (data : Nat) : Nat → Nat :=
  let n := EEPROM_read mem 0
  let n := (n + 1) % 256
  let mem := EEPROM_write mem n data
  EEPROM_write mem 0 n

/-- Calls `filesystem_write` once per sample, in order. -/
def filesystem_write_seq (mem : Nat → Nat) (samples : List Nat) : Nat → Nat :=
  samples.foldl filesystem_write mem

/-! ## libc conversions used by the dispatcher (`sprintf`, `sscanf`) -/

/-- Decimal digits of `n`, least significant first; `fuel` bounds their
number. -/
def utoa_rev : Nat → Nat → List Nat
  | 0, _ => []
  | fuel + 1, n => (48 + n % 10) :: (if n / 10 = 0 then [] else utoa_rev fuel (n / 10))

/-- Decimal text of a natural number, most significant digit first. -/
def utoa (n : Nat) : List Nat := (utoa_rev (n + 1) n).reverse

/-- The `%d` conversion of `printf`. -/
def fmt_d (x : Int) : List Nat :=
  if x < 0 then 45 :: utoa x.natAbs else utoa x.natAbs

/-- C `isspace`: space, `\t`, `\n`, `\v`, `\f`, `\r`. -/
def isspace (c : Nat) : Bool := c = 32 || (9 ≤ c && c ≤ 13)

/-- C `isdigit`. -/
def isdigit (c : Nat) : Bool := 48 ≤ c && c ≤ 57

/-- Value of a string of decimal digits. -/
def atoi_digits (ds : List Nat) : Nat :=
  ds.foldl (fun acc c => 10 * acc + (c - 48)) 0

/-- Conversion to the 16-bit `int` of the target. -/
def to_int16 (v : Int) : Int := (v + 32768) % 65536 - 32768

/-- The digits part of the `%d` conversion of `scanf`: `none` when no digit
is there (nothing is assigned). -/
def scan_digits (neg : Bool) (r : List Nat) : Option Int :=
  let ds := r.takeWhile isdigit
  if ds = [] then none
  else some (to_int16 (if neg then -(atoi_digits ds : Int) else (atoi_digits ds : Int)))

/-- The `%d` conversion of `scanf`: leading white space, an optional sign,
decimal digits. -/
def scan_d (input : List Nat) : Option Int :=
  let r := input.dropWhile isspace
  if r.head? = some 45 then scan_digits true r.tail
  else if r.head? = some 43 then scan_digits false r.tail
  else scan_digits false r

/-- `sscanf(input, "%*s %d", &x)`: the value assigned to `x`, `none` when
nothing is assigned.  `%*s` skips white space and then one non-empty run of
non-space characters. -/
def sscanf_s_d (input : List Nat) : Option Int :=
  let r := input.dropWhile isspace
  if r.takeWhile (fun c => !isspace c) = [] then none
  else scan_d ((r.dropWhile (fun c => !isspace c)).dropWhile isspace)

/-! ## Program state -/

structure State where
  flag_hashtag : Int
  flag_number : Int
  flag_star : Int
  mode_auto : Int
  measure : Int
  flag_check_command : Int
  Buffer : serial_buffer
  eeprom : Nat → Nat
  serial : List (List Nat)
  led : List Nat

/-- What one call of `loop` reads from outside the program state. -/
structure LoopInput where
  /-- Result of `keypad.getKey()`; `NO_KEY` is 0. -/
  key : Nat
  /-- Result of `analogRead(A0)` at line 269 (keypad command 2). -/
  analog_key : Nat
  /-- Result of `analogRead(A0)` at line 294 (automatic measurement). -/
  analog_auto : Nat
  /-- Result of `analogRead(A0)` at line 322 (MEASURE). -/
  analog_measure : Nat
  /-- Result of `analogRead(A0)` at line 338 (RECORD). -/
  analog_record : Nat
  /-- The string the local `out_buffer` holds before anything is stored in
  it. -/
  out_buffer : List Nat
  /-- The value the local `x` holds before anything is stored in it. -/
  x : Int

def NO_KEY : Nat := 0
def HIGH : Nat := 1
def LOW : Nat := 0

/-- `void check_modeauto()` (lines 190-194). -/
def check_modeauto (s : State) : State :=
  if s.mode_auto = 1 then { s with measure := 1 } else { s with measure := 0 }

/-- `void serialEvent()` (lines 95-106) with the given characters
available. -/
def serialEvent (s : State) : List Nat → State
  | [] => s
  | c :: cs =>
    if c = 10 then
      serialEvent { s with Buffer := (buffer_add s.Buffer 0).1, flag_check_command := 1 } cs
    else
      serialEvent { s with Buffer := (buffer_add s.Buffer c).1 } cs

/-! ## `loop` (lines 196-366) -/

/-- The `switch (key)` of lines 209-248. -/
def loop_switch (key : Nat) (s : State) : State :=
  if key = 35 then { s with flag_hashtag := 1 }
  else if key = 49 then
    (if s.flag_hashtag = 1 then { s with flag_number := 1 } else s)
  else if key = 50 then
    (if s.flag_hashtag = 1 then { s with flag_number := 2 } else s)
  else if key = 51 then
    (if s.flag_hashtag = 1 then { s with flag_number := 3 } else s)
  else if key = 52 then
    (if s.flag_hashtag = 1 then { s with flag_number := 4 } else s)
  else if key = 42 then
    (if s.flag_number ≠ 0 then { s with flag_star := 1 } else { s with flag_hashtag := 0 })
  else s

/-- Lines 253-265: command 1, blink the LED. -/
def command_1 (s : State) : State :=
  if s.flag_number = 1 ∧ s.flag_star = 1 then
    { s with led := s.led ++ [HIGH, LOW], flag_number := 0, flag_hashtag := 0, flag_star := 0 }
  else s

/-- Lines 267-275: command 2, measure and store. -/
def command_2 (inp : LoopInput) (s : State) : State :=
  if s.flag_number = 2 ∧ s.flag_star = 1 then
    let valueLDR := (inp.analog_key / 4) % 256
    { s with eeprom := filesystem_write s.eeprom valueLDR,
             flag_number := 0, flag_hashtag := 0, flag_star := 0 }
  else s

/-- Lines 277-282: command 3, automatic measurement on. -/
def command_3 (s : State) : State :=
  if s.flag_number = 3 ∧ s.flag_star = 1 then
    { s with mode_auto := 1, flag_hashtag := 0, flag_number := 0, flag_star := 0 }
  else s

/-- Lines 284-289: command 4, automatic measurement off. -/
def command_4 (s : State) : State :=
  if s.flag_number = 4 ∧ s.flag_star = 1 then
    { s with mode_auto := 0, flag_hashtag := 0, flag_number := 0, flag_star := 0 }
  else s

/-- The command blocks of lines 251-290. -/
def loop_commands (inp : LoopInput) (s : State) : State :=
  if s.flag_hashtag = 1 then
    command_4 (command_3 (command_2 inp (command_1 s)))
  else s

/-- Lines 293-298: the automatic measurement. -/
def loop_measure (inp : LoopInput) (s : State) : State :=
  if s.measure = 1 then
    let valueLDR := (inp.analog_auto / 4) % 256
    { s with eeprom := filesystem_write s.eeprom valueLDR,
             serial := s.serial ++ [utoa valueLDR ++ [13, 10]],
             measure := 0 }
  else s

/-- The program state together with the locals `out_buffer` and
`flag_write` of `loop`. -/
structure Frame where
  g : State
  out_buffer : List Nat
  flag_write : Int

/-- Lines 311-314. -/
def cmd_PING (f : Frame) : Frame :=
  if str_cmp f.g.Buffer.data (lit "PING") 4 ≠ 0 then
    { f with out_buffer := ascii "PONG\n", flag_write := 1 }
  else f

/-- Lines 316-319. -/
def cmd_ID (f : Frame) : Frame :=
  if str_cmp f.g.Buffer.data (lit "ID") 2 ≠ 0 then
    { f with out_buffer := ascii "ISA E JULIA\n", flag_write := 1 }
  else f

/-- Lines 321-325. -/
def cmd_MEASURE (inp : LoopInput) (f : Frame) : Frame :=
  if str_cmp f.g.Buffer.data (lit "MEASURE") 7 ≠ 0 then
    let valueLDR := (inp.analog_measure / 4) % 256
    { f with out_buffer := fmt_d valueLDR ++ ascii "\n", flag_write := 1 }
  else f

/-- Lines 327-330. -/
def cmd_MEMSTATUS (f : Frame) : Frame :=
  if str_cmp f.g.Buffer.data (lit "MEMSTATUS") 9 ≠ 0 then
    { f with out_buffer := fmt_d (EEPROM_read f.g.eeprom 0) ++ ascii "\n", flag_write := 1 }
  else f

/-- Lines 332-335. -/
def cmd_RESET (f : Frame) : Frame :=
  if str_cmp f.g.Buffer.data (lit "RESET") 5 ≠ 0 then
    { f with g := { f.g with eeprom := EEPROM_write f.g.eeprom 0 0,
                             Buffer := buffer_clean f.g.Buffer } }
  else f

/-- Lines 337-341.  Nothing is stored in `out_buffer` here. -/
def cmd_RECORD (inp : LoopInput) (f : Frame) : Frame :=
  if str_cmp f.g.Buffer.data (lit "RECORD") 5 ≠ 0 then
    let valueLDR := (inp.analog_record / 4) % 256
    { f with g := { f.g with eeprom := filesystem_write f.g.eeprom valueLDR },
             flag_write := 1 }
  else f

/-- Lines 343-348.  `sscanf` reads `Buffer.data` as a C string, here up to
the first NUL within the `MAX_BUFFER_SIZE` characters of the array; `x` keeps
its previous value when `sscanf` assigns nothing; `EEPROM_read(x)` converts
`x` to `unsigned char`. -/
def cmd_GET (inp : LoopInput) (f : Frame) : Frame :=
  if str_cmp f.g.Buffer.data (lit "GET") 3 ≠ 0 then
    let x := (sscanf_s_d (c_str f.g.Buffer.data MAX_BUFFER_SIZE 0)).getD inp.x
    { f with out_buffer := ascii "EEPROM value[" ++ fmt_d x ++ ascii "] = "
                             ++ fmt_d (EEPROM_read f.g.eeprom (x % 256).toNat) ++ ascii "\n",
             flag_write := 1 }
  else f

/-- Lines 310-352: the command dispatch. -/
def loop_dispatch (inp : LoopInput) (s : State) : Frame :=
  let f : Frame := { g := s, out_buffer := inp.out_buffer, flag_write := 0 }
  if s.flag_check_command = 1 then
    let f := cmd_GET inp (cmd_RECORD inp (cmd_RESET (cmd_MEMSTATUS
              (cmd_MEASURE inp (cmd_ID (cmd_PING f))))))
    { f with g := { f.g with flag_check_command := 0 } }
  else f

/-- Lines 360-364: `Serial.write(out_buffer)` and `buffer_clean()` when
`flag_write` is set. -/
def loop_flush (f : Frame) : State :=
  if f.flag_write = 1 then
    { f.g with serial := f.g.serial ++ [f.out_buffer], Buffer := buffer_clean f.g.Buffer }
  else f.g

/-- The state at line 310, after the keypad blocks and the automatic
measurement. -/
def loop_keypad (inp : LoopInput) (s : State) : State :=
  loop_measure inp (loop_commands inp (loop_switch inp.key s))

/-- `void loop()`. -/
def loop (inp : LoopInput) (s : State) : State :=
  loop_flush (loop_dispatch inp (loop_keypad inp s))

/-! ## Runs of the whole program -/

/-- What can happen between two instructions of the main program: the timer
fires, characters arrive, or `loop` runs once. -/
inductive Action where
  | timer : Action
  | receive : List Nat → Action
  | iterate : LoopInput → Action

def step (s : State) : Action → State
  | .timer => check_modeauto s
  | .receive cs => serialEvent s cs
  | .iterate inp => loop inp s

def run (s : State) (as : List Action) : State := as.foldl step s

/-- Runs `loop` once per input, in order. -/
def loops (s : State) (inps : List LoopInput) : State :=
  inps.foldl (fun t inp => loop inp t) s

/-- The keys pressed during a sequence of iterations, `NO_KEY` left out. -/
def keys_of (inps : List LoopInput) : List Nat :=
  (inps.map (fun inp => inp.key)).filter (fun k => k ≠ NO_KEY)

/-- The state when `loop` first runs: the globals hold their initial value 0,
`setup` has cleaned the buffer, the EEPROM holds what it held before
power-up, nothing has been written to the serial port or the LED. -/
def power_on (mem : Nat → Nat) : State :=
  { flag_hashtag := 0, flag_number := 0, flag_star := 0, mode_auto := 0, measure := 0,
    flag_check_command := 0, Buffer := buffer_clean { data := fun _ => 0, tam_buffer := 0 },
    eeprom := mem, serial := [], led := [] }

/-- An iteration with no key pressed, the analog input at 0 and zeroed
locals. -/
def no_input : LoopInput :=
  { key := NO_KEY, analog_key := 0, analog_auto := 0, analog_measure := 0, analog_record := 0,
    out_buffer := [], x := 0 }

/-- Two states agree on everything the keypad blocks own: the three keypad
flags, `mode_auto` and the LED. -/
def same_keypad (a b : State) : Prop :=
  a.flag_hashtag = b.flag_hashtag ∧ a.flag_number = b.flag_number ∧
  a.flag_star = b.flag_star ∧ a.mode_auto = b.mode_auto ∧ a.led = b.led

/-- A buffer whose first characters are those of `line` followed by NUL. -/
def holds_line (data : Nat → Nat) (line : List Nat) : Prop :=
  (∀ i, i < line.length → data i = line.getD i 0) ∧ data line.length = 0

/-- The timer fires and `loop` runs once, for each input in order. -/
def timer_rounds : List LoopInput → List Action
  | [] => []
  | inp :: rest => Action.timer :: Action.iterate inp :: timer_rounds rest

/-- The byte `loop` stores for an automatic measurement (line 294). -/
def auto_sample (inp : LoopInput) : Nat := (inp.analog_auto / 4) % 256

/-- None of the seven `str_cmp` tests of the dispatcher (lines 311-343)
succeeds on the buffer. -/
def no_match (data : Nat → Nat) : Prop :=
  str_cmp data (lit "PING") 4 = 0 ∧ str_cmp data (lit "ID") 2 = 0 ∧
  str_cmp data (lit "MEASURE") 7 = 0 ∧ str_cmp data (lit "MEMSTATUS") 9 = 0 ∧
  str_cmp data (lit "RESET") 5 = 0 ∧ str_cmp data (lit "RECORD") 5 = 0 ∧
  str_cmp data (lit "GET") 3 = 0

/-- The stored part of the buffer decides every `str_cmp` test: it holds a
NUL, or at least the nine characters of the longest comparison. -/
def sealed (B : serial_buffer) : Prop :=
  (∃ p, p < B.tam_buffer ∧ B.data p = 0) ∨ 9 ≤ B.tam_buffer

/-- The timer fires, or `loop` runs with no key pressed; nothing is
received. -/
def idle_action : Action → Bool
  | Action.timer => true
  | Action.receive _ => false
  | Action.iterate inp => inp.key = NO_KEY

/-- Line 350: the dispatch block ends by clearing `flag_check_command`. -/
def dispatch_done (f : Frame) : Frame :=
  { f with g := { f.g with flag_check_command := 0 } }

/-! # Theorems -/

/-! ## The stack file system -/

/-- Writing one more sample after a sequence. -/
theorem filesystem_write_seq_snoc (mem : Nat → Nat) (xs : List Nat) (x : Nat) :
    filesystem_write_seq mem (xs ++ [x]) = filesystem_write (filesystem_write_seq mem xs) x := by
  simp [filesystem_write_seq, List.foldl_append]

/-- The stack layout after a sequence of writes, by induction from the
right. -/
theorem fs_seq_fresh_aux (mem : Nat → Nat) (h0 : mem 0 = 0) (samples : List Nat) :
    samples.length ≤ 255 → (∀ x ∈ samples, x < 256) →
    filesystem_write_seq mem samples 0 = samples.length ∧
    ∀ (i : Nat) (h : i < samples.length), filesystem_write_seq mem samples (i + 1) = samples[i] := by
  induction samples using List.reverseRecOn with
  | nil => intro _ _; simp [filesystem_write_seq, h0]
  | append_singleton xs x ih =>
    intro hN hb
    have hlen : xs.length + 1 ≤ 255 := by simpa using hN
    have hx : x < 256 := hb x (by simp)
    obtain ⟨ih0, ihs⟩ := ih (by omega) (fun y hy => hb y (by simp [hy]))
    have hn : (EEPROM_read (filesystem_write_seq mem xs) 0 + 1) % 256 = xs.length + 1 := by
      simp only [EEPROM_read, Nat.zero_mod, ih0]
      omega
    rw [filesystem_write_seq_snoc]
    constructor
    · simp only [filesystem_write, EEPROM_write, hn]
      simp
      omega
    · intro i hi
      simp only [filesystem_write, EEPROM_write, hn]
      have hi' : i < xs.length + 1 := by simpa using hi
      by_cases hlt : i < xs.length
      · have h1 : ¬ (i + 1 = 0 % 256) := by omega
        have h2 : ¬ (i + 1 = (xs.length + 1) % 256) := by omega
        simp only [h1, h2, if_false]
        rw [ihs i hlt, List.getElem_append_left]
      · have hie : i = xs.length := by omega
        subst hie
        have h1 : ¬ (xs.length + 1 = 0 % 256) := by omega
        have h2 : (xs.length + 1 = (xs.length + 1) % 256) := by omega
        simp only [h1, if_false]
        rw [if_pos h2]
        simp
        omega

/-- C1: from an EEPROM whose address 0 holds 0, one `filesystem_write` per
sample, for at most 255 sample bytes, leaves address 0 equal to the number of
samples and address `i + 1` equal to the sample of index `i`. -/
theorem filesystem_write_seq_fresh (mem : Nat → Nat) (samples : List Nat)
    (h0 : mem 0 = 0) (hN : samples.length ≤ 255) (hb : ∀ x ∈ samples, x < 256) :
    filesystem_write_seq mem samples 0 = samples.length ∧
    ∀ (i : Nat) (h : i < samples.length), filesystem_write_seq mem samples (i + 1) = samples[i] :=
  fs_seq_fresh_aux mem h0 samples hN hb

/-- Witness of `filesystem_write_seq_fresh`: three samples written to a
zeroed EEPROM. -/
theorem filesystem_write_seq_fresh_witness :
    ((fun _ => 0 : Nat → Nat) 0 = 0 ∧ [7, 200, 9].length ≤ 255 ∧ ∀ x ∈ [7, 200, 9], x < 256) ∧
    filesystem_write_seq (fun _ => 0) [7, 200, 9] 0 = [7, 200, 9].length ∧
    ∀ (i : Nat) (h : i < [7, 200, 9].length),
      filesystem_write_seq (fun _ => 0) [7, 200, 9] (i + 1) = [7, 200, 9][i] :=
  ⟨⟨rfl, by decide, by decide⟩,
   filesystem_write_seq_fresh (fun _ => 0) [7, 200, 9] rfl (by decide) (by decide)⟩

/-! ## The line buffer -/

/-- Adding a sequence that fits: all calls succeed, the sequence lands after
the old contents, which are kept. -/
theorem buffer_add_seq_from (cs : List Nat) :
    ∀ (B : serial_buffer), B.tam_buffer + cs.length ≤ MAX_BUFFER_SIZE → (∀ c ∈ cs, c < 256) →
      (buffer_add_seq B cs).2 = List.replicate cs.length 1 ∧
      (buffer_add_seq B cs).1.tam_buffer = B.tam_buffer + cs.length ∧
      (∀ (i : Nat) (h : i < cs.length), (buffer_add_seq B cs).1.data (B.tam_buffer + i) = cs[i]) ∧
      (∀ j, j < B.tam_buffer → (buffer_add_seq B cs).1.data j = B.data j) := by
  induction cs with
  | nil => intro B _ _; simp [buffer_add_seq]
  | cons c cs ih =>
    intro B hlen hb
    have hlen' : B.tam_buffer + (cs.length + 1) ≤ MAX_BUFFER_SIZE := by simpa using hlen
    have hlt : B.tam_buffer < MAX_BUFFER_SIZE := by omega
    have hc : c < 256 := hb c (by simp)
    have hadd : buffer_add B c =
        ({ data := fun i => if i = B.tam_buffer then c % 256 else B.data i,
           tam_buffer := B.tam_buffer + 1 }, 1) := by
      simp [buffer_add, hlt]
    obtain ⟨ih1, ih2, ih3, ih4⟩ := ih (buffer_add B c).1
      (by rw [hadd]; simp only; omega) (fun y hy => hb y (by simp [hy]))
    simp only [buffer_add_seq]
    refine ⟨?_, ?_, ?_, ?_⟩
    · rw [ih1, hadd]; simp [List.replicate_succ]
    · rw [ih2, hadd]; simp only [List.length_cons]; omega
    · intro i hi
      cases i with
      | zero =>
        have := ih4 B.tam_buffer (by rw [hadd]; simp)
        simp only [Nat.add_zero, List.getElem_cons_zero]
        rw [this, hadd]
        simp
        omega
      | succ k =>
        have hk : k < cs.length := by simpa using hi
        have := ih3 k hk
        rw [hadd] at this
        simp only at this
        simp only [List.getElem_cons_succ]
        rw [← this, hadd]
        congr 1
        omega
    · intro j hj
      have := ih4 j (by rw [hadd]; simp only; omega)
      rw [this, hadd]
      simp
      omega

/-- C2: from a cleaned buffer, `buffer_add` on each of at most 30 bytes in
order returns 1 every time, leaves `tam_buffer` equal to their number and
`data` holding them in order; on a buffer with `tam_buffer == 30` it returns
0 and changes nothing. -/
theorem buffer_add_seq_clean (B : serial_buffer) (cs : List Nat)
    (hk : cs.length ≤ 30) (hb : ∀ c ∈ cs, c < 256) :
    ((buffer_add_seq (buffer_clean B) cs).2 = List.replicate cs.length 1 ∧
     (buffer_add_seq (buffer_clean B) cs).1.tam_buffer = cs.length ∧
     ∀ (i : Nat) (h : i < cs.length), (buffer_add_seq (buffer_clean B) cs).1.data i = cs[i]) ∧
    ∀ (F : serial_buffer) (c : Nat), F.tam_buffer = 30 → buffer_add F c = (F, 0) := by
  constructor
  · obtain ⟨h1, h2, h3, _⟩ := buffer_add_seq_from cs (buffer_clean B)
      (by simp [buffer_clean, MAX_BUFFER_SIZE]; exact hk) hb
    refine ⟨h1, ?_, ?_⟩
    · simpa [buffer_clean] using h2
    · intro i hi
      simpa [buffer_clean] using h3 i hi
  · intro F c hF
    simp [buffer_add, hF, MAX_BUFFER_SIZE]

/-- Witness of `buffer_add_seq_clean`: the bytes of "PING" added to a
cleaned buffer that held other data. -/
theorem buffer_add_seq_clean_witness :
    ([80, 73, 78, 71].length ≤ 30 ∧ ∀ c ∈ [80, 73, 78, 71], c < 256) ∧
    ((buffer_add_seq (buffer_clean ⟨fun _ => 9, 17⟩) [80, 73, 78, 71]).2
        = List.replicate [80, 73, 78, 71].length 1 ∧
     (buffer_add_seq (buffer_clean ⟨fun _ => 9, 17⟩) [80, 73, 78, 71]).1.tam_buffer
        = [80, 73, 78, 71].length ∧
     ∀ (i : Nat) (h : i < [80, 73, 78, 71].length),
       (buffer_add_seq (buffer_clean ⟨fun _ => 9, 17⟩) [80, 73, 78, 71]).1.data i
         = [80, 73, 78, 71][i]) ∧
    ∀ (F : serial_buffer) (c : Nat), F.tam_buffer = 30 → buffer_add F c = (F, 0) :=
  ⟨⟨by decide, by decide⟩,
   buffer_add_seq_clean ⟨fun _ => 9, 17⟩ [80, 73, 78, 71] (by decide) (by decide)⟩

/-! ## The keypad sequencer -/

/-- An iteration with no automatic measurement pending and no command line
ready only runs the keypad blocks. -/
theorem loop_quiet (inp : LoopInput) (s : State)
    (hm : s.measure ≠ 1) (hc : s.flag_check_command ≠ 1) :
    loop inp s = loop_commands inp (loop_switch inp.key s) := by
  have h1 : (loop_switch inp.key s).measure = s.measure ∧
      (loop_switch inp.key s).flag_check_command = s.flag_check_command := by
    unfold loop_switch; split_ifs <;> exact ⟨rfl, rfl⟩
  have h2 : ∀ t : State, (loop_commands inp t).measure = t.measure ∧
      (loop_commands inp t).flag_check_command = t.flag_check_command := by
    intro t
    unfold loop_commands command_4 command_3 command_2 command_1
    split_ifs <;> exact ⟨rfl, rfl⟩
  have hm' : (loop_commands inp (loop_switch inp.key s)).measure ≠ 1 := by
    rw [(h2 _).1, h1.1]; exact hm
  have hc' : (loop_commands inp (loop_switch inp.key s)).flag_check_command ≠ 1 := by
    rw [(h2 _).2, h1.2]; exact hc
  unfold loop loop_keypad
  have hmeas : loop_measure inp (loop_commands inp (loop_switch inp.key s))
      = loop_commands inp (loop_switch inp.key s) := by
    unfold loop_measure; rw [if_neg hm']
  rw [hmeas]
  unfold loop_dispatch
  simp only [if_neg hc']
  unfold loop_flush
  simp

/-- The command blocks do nothing while `flag_star` is not set. -/
theorem loop_commands_idle (inp : LoopInput) (s : State) (hs : s.flag_star ≠ 1) :
    loop_commands inp s = s := by
  unfold loop_commands command_4 command_3 command_2 command_1
  split_ifs <;> simp_all

/-- A quiet iteration without a key changes nothing. -/
theorem loop_no_key (inp : LoopInput) (s : State) (hk : inp.key = NO_KEY)
    (hm : s.measure ≠ 1) (hc : s.flag_check_command ≠ 1) (hs : s.flag_star = 0) :
    loop inp s = s := by
  rw [loop_quiet inp s hm hc]
  have : loop_switch inp.key s = s := by
    rw [hk]; simp [loop_switch, NO_KEY]
  rw [this, loop_commands_idle inp s (by rw [hs]; decide)]

/-- A quiet iteration with `#` sets `flag_hashtag` and nothing else. -/
theorem loop_hash (inp : LoopInput) (s : State) (hk : inp.key = 35)
    (hm : s.measure ≠ 1) (hc : s.flag_check_command ≠ 1) (hs : s.flag_star = 0) :
    loop inp s = { s with flag_hashtag := 1 } := by
  rw [loop_quiet inp s hm hc]
  have : loop_switch inp.key s = { s with flag_hashtag := 1 } := by
    rw [hk]; simp [loop_switch]
  rw [this, loop_commands_idle inp _ (by simp only; rw [hs]; decide)]

/-- A quiet iteration with a digit 1..4 after `#` records the digit. -/
theorem loop_digit (inp : LoopInput) (s : State) (d : Nat)
    (hd : d = 1 ∨ d = 2 ∨ d = 3 ∨ d = 4) (hk : inp.key = 48 + d)
    (hm : s.measure ≠ 1) (hc : s.flag_check_command ≠ 1)
    (hh : s.flag_hashtag = 1) (hs : s.flag_star = 0) :
    loop inp s = { s with flag_number := (d : Int) } := by
  rw [loop_quiet inp s hm hc]
  have : loop_switch inp.key s = { s with flag_number := (d : Int) } := by
    rw [hk]
    rcases hd with h | h | h | h <;> subst h <;> simp [loop_switch, hh]
  rw [this, loop_commands_idle inp _ (by simp only; rw [hs]; decide)]

/-- A quiet iteration with `*` after `#` and a digit runs that digit's
command and clears the three flags. -/
theorem loop_star (inp : LoopInput) (s : State) (d : Nat)
    (hd : d = 1 ∨ d = 2 ∨ d = 3 ∨ d = 4) (hk : inp.key = 42)
    (hm : s.measure ≠ 1) (hc : s.flag_check_command ≠ 1)
    (hh : s.flag_hashtag = 1) (hn : s.flag_number = (d : Int)) :
    loop inp s =
      if d = 1 then
        { s with led := s.led ++ [HIGH, LOW],
                 flag_hashtag := 0, flag_number := 0, flag_star := 0 }
      else if d = 2 then
        { s with eeprom := filesystem_write s.eeprom ((inp.analog_key / 4) % 256),
                 flag_hashtag := 0, flag_number := 0, flag_star := 0 }
      else if d = 3 then
        { s with mode_auto := 1, flag_hashtag := 0, flag_number := 0, flag_star := 0 }
      else
        { s with mode_auto := 0, flag_hashtag := 0, flag_number := 0, flag_star := 0 } := by
  rw [loop_quiet inp s hm hc, hk]
  rcases hd with h | h | h | h <;> subst h <;>
    simp [loop_switch, loop_commands, command_1, command_2, command_3, command_4, hh, hn]

/-- Unfolding `loops` by one iteration. -/
theorem loops_cons (s : State) (inp : LoopInput) (rest : List LoopInput) :
    loops s (inp :: rest) = loops (loop inp s) rest := rfl

/-- Unfolding `keys_of` by one iteration. -/
theorem keys_of_cons (inp : LoopInput) (rest : List LoopInput) :
    keys_of (inp :: rest) =
      if inp.key = NO_KEY then keys_of rest else inp.key :: keys_of rest := by
  unfold keys_of
  by_cases h : inp.key = NO_KEY <;> simp [h]

/-- Quiet iterations without any key change nothing. -/
theorem loops_no_keys (inps : List LoopInput) (s : State) (hk : keys_of inps = [])
    (hm : s.measure ≠ 1) (hc : s.flag_check_command ≠ 1) (hs : s.flag_star = 0) :
    loops s inps = s := by
  induction inps with
  | nil => rfl
  | cons inp rest ih =>
    rw [keys_of_cons] at hk
    by_cases h : inp.key = NO_KEY
    · rw [if_pos h] at hk
      rw [loops_cons, loop_no_key inp s h hm hc hs]
      exact ih hk
    · rw [if_neg h] at hk
      cases hk

/-- Quiet iterations after `#` whose keys are digits 1..4: only
`flag_number` changes, to the last digit pressed. -/
theorem loops_digits (inps : List LoopInput) :
    ∀ (s : State) (ds : List Nat), keys_of inps = ds.map (fun d => 48 + d) →
      (∀ d ∈ ds, d = 1 ∨ d = 2 ∨ d = 3 ∨ d = 4) →
      s.measure ≠ 1 → s.flag_check_command ≠ 1 → s.flag_hashtag = 1 → s.flag_star = 0 →
      loops s inps = { s with flag_number := ds.foldl (fun (_ : Int) (d : Nat) => (d : Int)) s.flag_number } := by
  induction inps with
  | nil =>
    intro s ds hk _ _ _ _ _
    cases ds with
    | nil => rfl
    | cons d ds => simp [keys_of] at hk
  | cons inp rest ih =>
    intro s ds hk hd hm hc hh hs
    rw [keys_of_cons] at hk
    by_cases h : inp.key = NO_KEY
    · rw [if_pos h] at hk
      rw [loops_cons, loop_no_key inp s h hm hc hs]
      exact ih s ds hk hd hm hc hh hs
    · rw [if_neg h] at hk
      cases ds with
      | nil => simp at hk
      | cons d ds =>
        simp only [List.map_cons, List.cons.injEq] at hk
        rw [loops_cons, loop_digit inp s d (hd d (by simp)) hk.1 hm hc hh hs]
        rw [ih { s with flag_number := (d : Int) } ds hk.2
          (fun e he => hd e (by simp [he])) hm hc hh hs]
        rfl

/-- Quiet iterations from Idle whose keys are `#` and then digits 1..4. -/
theorem loops_hash_digits (inps : List LoopInput) (s : State) (ds : List Nat)
    (hk : keys_of inps = 35 :: ds.map (fun d => 48 + d))
    (hd : ∀ d ∈ ds, d = 1 ∨ d = 2 ∨ d = 3 ∨ d = 4)
    (hm : s.measure ≠ 1) (hc : s.flag_check_command ≠ 1) (hs : s.flag_star = 0) :
    loops s inps =
      { s with flag_hashtag := 1,
               flag_number := ds.foldl (fun (_ : Int) (d : Nat) => (d : Int)) s.flag_number } := by
  induction inps with
  | nil => simp [keys_of] at hk
  | cons inp rest ih =>
    rw [keys_of_cons] at hk
    by_cases h : inp.key = NO_KEY
    · rw [if_pos h] at hk
      rw [loops_cons, loop_no_key inp s h hm hc hs]
      exact ih hk
    · rw [if_neg h] at hk
      simp only [List.cons.injEq] at hk
      rw [loops_cons, loop_hash inp s hk.1 hm hc hs]
      rw [loops_digits rest { s with flag_hashtag := 1 } ds hk.2 hd hm hc rfl hs]

/-- The first key of a run of iterations: the iterations before it have no
key and, when quiet, change nothing. -/
theorem loops_key_cons (inps : List LoopInput) (k : Nat) (ks : List Nat)
    (hk : keys_of inps = k :: ks) :
    ∃ (inp : LoopInput) (rest : List LoopInput), inp.key = k ∧ keys_of rest = ks ∧
      ∀ s : State, s.measure ≠ 1 → s.flag_check_command ≠ 1 → s.flag_star = 0 →
        loops s inps = loops (loop inp s) rest := by
  induction inps with
  | nil => simp [keys_of] at hk
  | cons inp rest ih =>
    rw [keys_of_cons] at hk
    by_cases h : inp.key = NO_KEY
    · rw [if_pos h] at hk
      obtain ⟨inp', rest', h1, h2, h3⟩ := ih hk
      refine ⟨inp', rest', h1, h2, ?_⟩
      intro s hm hc hs
      rw [loops_cons, loop_no_key inp s h hm hc hs]
      exact h3 s hm hc hs
    · rw [if_neg h] at hk
      simp only [List.cons.injEq] at hk
      exact ⟨inp, rest, hk.1, hk.2, fun s _ _ _ => rfl⟩

/-- A quiet iteration with `*` and no digit recorded clears `flag_hashtag`
and nothing else. -/
theorem loop_star_no_digit (inp : LoopInput) (s : State) (hk : inp.key = 42)
    (hm : s.measure ≠ 1) (hc : s.flag_check_command ≠ 1)
    (hn : s.flag_number = 0) :
    loop inp s = { s with flag_hashtag := 0 } := by
  rw [loop_quiet inp s hm hc]
  have : loop_switch inp.key s = { s with flag_hashtag := 0 } := by
    rw [hk]; simp [loop_switch, hn]
  rw [this]
  simp [loop_commands]

/-- `same_keypad` is transitive. -/
theorem same_keypad_trans {a b c : State} (h1 : same_keypad a b) (h2 : same_keypad b c) :
    same_keypad a c :=
  ⟨h1.1.trans h2.1, h1.2.1.trans h2.2.1, h1.2.2.1.trans h2.2.2.1,
   h1.2.2.2.1.trans h2.2.2.2.1, h1.2.2.2.2.trans h2.2.2.2.2⟩

/-- The automatic measurement leaves the keypad's variables alone. -/
theorem loop_measure_keypad (inp : LoopInput) (s : State) :
    same_keypad (loop_measure inp s) s := by
  unfold loop_measure
  split <;> exact ⟨rfl, rfl, rfl, rfl, rfl⟩

/-- The command dispatch leaves the keypad's variables alone. -/
theorem loop_dispatch_keypad (inp : LoopInput) (s : State) :
    same_keypad (loop_dispatch inp s).g s := by
  have h1 : ∀ f : Frame, same_keypad (cmd_PING f).g f.g := by
    intro f; unfold cmd_PING; split <;> exact ⟨rfl, rfl, rfl, rfl, rfl⟩
  have h2 : ∀ f : Frame, same_keypad (cmd_ID f).g f.g := by
    intro f; unfold cmd_ID; split <;> exact ⟨rfl, rfl, rfl, rfl, rfl⟩
  have h3 : ∀ f : Frame, same_keypad (cmd_MEASURE inp f).g f.g := by
    intro f; unfold cmd_MEASURE; split <;> exact ⟨rfl, rfl, rfl, rfl, rfl⟩
  have h4 : ∀ f : Frame, same_keypad (cmd_MEMSTATUS f).g f.g := by
    intro f; unfold cmd_MEMSTATUS; split <;> exact ⟨rfl, rfl, rfl, rfl, rfl⟩
  have h5 : ∀ f : Frame, same_keypad (cmd_RESET f).g f.g := by
    intro f; unfold cmd_RESET; split <;> exact ⟨rfl, rfl, rfl, rfl, rfl⟩
  have h6 : ∀ f : Frame, same_keypad (cmd_RECORD inp f).g f.g := by
    intro f; unfold cmd_RECORD; split <;> exact ⟨rfl, rfl, rfl, rfl, rfl⟩
  have h7 : ∀ f : Frame, same_keypad (cmd_GET inp f).g f.g := by
    intro f; unfold cmd_GET; split <;> exact ⟨rfl, rfl, rfl, rfl, rfl⟩
  have chain : ∀ f : Frame, same_keypad (cmd_GET inp (cmd_RECORD inp (cmd_RESET (cmd_MEMSTATUS
      (cmd_MEASURE inp (cmd_ID (cmd_PING f))))))).g f.g := by
    intro f
    have a1 := h1 f
    have a2 := h2 (cmd_PING f)
    have a3 := h3 (cmd_ID (cmd_PING f))
    have a4 := h4 (cmd_MEASURE inp (cmd_ID (cmd_PING f)))
    have a5 := h5 (cmd_MEMSTATUS (cmd_MEASURE inp (cmd_ID (cmd_PING f))))
    have a6 := h6 (cmd_RESET (cmd_MEMSTATUS (cmd_MEASURE inp (cmd_ID (cmd_PING f)))))
    have a7 := h7 (cmd_RECORD inp (cmd_RESET (cmd_MEMSTATUS (cmd_MEASURE inp (cmd_ID (cmd_PING f))))))
    exact same_keypad_trans a7 (same_keypad_trans a6 (same_keypad_trans a5
      (same_keypad_trans a4 (same_keypad_trans a3 (same_keypad_trans a2 a1)))))
  unfold loop_dispatch
  split
  · have c := chain ⟨s, inp.out_buffer, 0⟩
    unfold same_keypad at c ⊢
    dsimp only at c ⊢
    exact c
  · exact ⟨rfl, rfl, rfl, rfl, rfl⟩

/-- The keypad's variables after an iteration are those the keypad blocks
leave, whatever else the iteration does. -/
theorem loop_keypad_vars (inp : LoopInput) (s : State) :
    same_keypad (loop inp s) (loop_commands inp (loop_switch inp.key s)) := by
  have hf : ∀ f : Frame, same_keypad (loop_flush f) f.g := by
    intro f; unfold loop_flush; split <;> exact ⟨rfl, rfl, rfl, rfl, rfl⟩
  unfold loop loop_keypad
  exact same_keypad_trans (hf (loop_dispatch inp (loop_measure inp (loop_commands inp
      (loop_switch inp.key s)))))
    (same_keypad_trans (loop_dispatch_keypad inp (loop_measure inp (loop_commands inp
      (loop_switch inp.key s))))
    (loop_measure_keypad inp (loop_commands inp (loop_switch inp.key s))))

/-- The keypad invariant is kept by every iteration: `flag_star` is clear at
its end, and a digit is recorded only with `flag_hashtag` set. -/
theorem keypad_inv_loop (inp : LoopInput) (s : State)
    (hs : s.flag_star = 0)
    (hn : s.flag_number = 0 ∨ (s.flag_hashtag = 1 ∧
      (s.flag_number = 1 ∨ s.flag_number = 2 ∨ s.flag_number = 3 ∨ s.flag_number = 4))) :
    (loop inp s).flag_star = 0 ∧
    ((loop inp s).flag_number = 0 ∨ ((loop inp s).flag_hashtag = 1 ∧
      ((loop inp s).flag_number = 1 ∨ (loop inp s).flag_number = 2 ∨
       (loop inp s).flag_number = 3 ∨ (loop inp s).flag_number = 4))) := by
  obtain ⟨e1, e2, e3, _, _⟩ := loop_keypad_vars inp s
  rw [e1, e2, e3]
  by_cases k42 : inp.key = 42
  · by_cases h0 : s.flag_number = 0
    · have hsw : loop_switch inp.key s = { s with flag_hashtag := 0 } := by
        simp [loop_switch, k42, h0]
      rw [hsw]
      simp [loop_commands, hs, h0]
    · rcases hn with h | ⟨h1, h⟩
      · exact absurd h h0
      · have hsw : loop_switch inp.key s = { s with flag_star := 1 } := by
          simp [loop_switch, k42, h0]
        rw [hsw]
        rcases h with h | h | h | h <;>
          simp [loop_commands, command_1, command_2, command_3, command_4, h1, h]
  · have hstar : (loop_switch inp.key s).flag_star = 0 := by
      unfold loop_switch
      simp only [k42, if_false]
      repeat' split
      all_goals exact hs
    rw [loop_commands_idle inp _ (by rw [hstar]; decide), hstar]
    refine ⟨rfl, ?_⟩
    unfold loop_switch
    simp only [k42, if_false]
    repeat' split
    all_goals first
      | exact hn
      | (right; exact ⟨by assumption, by simp⟩)
      | (rcases hn with h | h
         · left; exact h
         · right; exact ⟨rfl, h.2⟩)

/-- The timer handler leaves the keypad's variables alone. -/
theorem check_modeauto_keypad (s : State) : same_keypad (check_modeauto s) s := by
  unfold check_modeauto
  split <;> exact ⟨rfl, rfl, rfl, rfl, rfl⟩

/-- The serial handler leaves the keypad's variables alone. -/
theorem serialEvent_keypad (cs : List Nat) : ∀ s : State, same_keypad (serialEvent s cs) s := by
  induction cs with
  | nil => intro s; exact ⟨rfl, rfl, rfl, rfl, rfl⟩
  | cons c cs ih =>
    intro s
    unfold serialEvent
    split
    · exact same_keypad_trans (ih _) ⟨rfl, rfl, rfl, rfl, rfl⟩
    · exact same_keypad_trans (ih _) ⟨rfl, rfl, rfl, rfl, rfl⟩

/-- The keypad invariant holds in every state reached from one where it
holds, whatever the timer, the serial port and the keypad do. -/
theorem keypad_inv_run (acts : List Action) :
    ∀ s : State, s.flag_star = 0 →
      (s.flag_number = 0 ∨ (s.flag_hashtag = 1 ∧
        (s.flag_number = 1 ∨ s.flag_number = 2 ∨ s.flag_number = 3 ∨ s.flag_number = 4))) →
      (run s acts).flag_star = 0 ∧
      ((run s acts).flag_number = 0 ∨ ((run s acts).flag_hashtag = 1 ∧
        ((run s acts).flag_number = 1 ∨ (run s acts).flag_number = 2 ∨
         (run s acts).flag_number = 3 ∨ (run s acts).flag_number = 4))) := by
  induction acts with
  | nil => intro s hs hn; exact ⟨hs, hn⟩
  | cons a rest ih =>
    intro s hs hn
    have hstep : (step s a).flag_star = 0 ∧
        ((step s a).flag_number = 0 ∨ ((step s a).flag_hashtag = 1 ∧
          ((step s a).flag_number = 1 ∨ (step s a).flag_number = 2 ∨
           (step s a).flag_number = 3 ∨ (step s a).flag_number = 4))) := by
      cases a with
      | timer =>
        obtain ⟨e1, e2, e3, _, _⟩ := check_modeauto_keypad s
        simp only [step]
        rw [e1, e2, e3]; exact ⟨hs, hn⟩
      | receive cs =>
        obtain ⟨e1, e2, e3, _, _⟩ := serialEvent_keypad cs s
        simp only [step]
        rw [e1, e2, e3]; exact ⟨hs, hn⟩
      | iterate inp => exact keypad_inv_loop inp s hs hn
    exact ih (step s a) hstep.1 hstep.2

/-- C9 (amended): in every state reached from one with no digit recorded
and `flag_star` clear (Idle in particular), an iteration with `#` sets
`flag_hashtag` and keeps `flag_number` as it was, so a recorded digit is not
discarded; from Idle, with no automatic measurement pending and no
command line ready, the keys `#`, `d`, `#`, `*` for a digit `d` in 1..4 run
the command of `d` once, in the iteration that receives `*`. -/
theorem hash_keeps_digit (s0 : State) (acts : List Action) (hash : LoopInput)
    (hn : s0.flag_number = 0) (hs : s0.flag_star = 0) (hk : hash.key = 35) :
    ((loop hash (run s0 acts)).flag_hashtag = 1 ∧
     (loop hash (run s0 acts)).flag_number = (run s0 acts).flag_number ∧
     (loop hash (run s0 acts)).flag_star = 0) ∧
    ∀ (s : State) (pre : List LoopInput) (star : LoopInput) (d : Nat),
      s.flag_hashtag = 0 → s.flag_number = 0 → s.flag_star = 0 →
      s.measure ≠ 1 → s.flag_check_command ≠ 1 →
      (d = 1 ∨ d = 2 ∨ d = 3 ∨ d = 4) →
      keys_of pre = [35, 48 + d, 35] → star.key = 42 →
      loops s pre = { s with flag_hashtag := 1, flag_number := (d : Int) } ∧
      loop star (loops s pre) =
        if d = 1 then { s with led := s.led ++ [HIGH, LOW] }
        else if d = 2 then
          { s with eeprom := filesystem_write s.eeprom ((star.analog_key / 4) % 256) }
        else if d = 3 then { s with mode_auto := 1 }
        else { s with mode_auto := 0 } := by
  constructor
  · obtain ⟨rs, _⟩ := keypad_inv_run acts s0 hs (Or.inl hn)
    obtain ⟨e1, e2, e3, _, _⟩ := loop_keypad_vars hash (run s0 acts)
    have hsw : loop_switch hash.key (run s0 acts) = { run s0 acts with flag_hashtag := 1 } := by
      rw [hk]; simp [loop_switch]
    rw [e1, e2, e3, hsw, loop_commands_idle hash _ (by simp only; rw [rs]; decide)]
    exact ⟨rfl, rfl, rs⟩
  · intro s pre star d h1 h2 h3 hm hc hd hpre hstar
    obtain ⟨i1, r1, k1, kr1, e1⟩ := loops_key_cons pre 35 [48 + d, 35] hpre
    obtain ⟨i2, r2, k2, kr2, e2⟩ := loops_key_cons r1 (48 + d) [35] kr1
    obtain ⟨i3, r3, k3, kr3, e3⟩ := loops_key_cons r2 35 [] kr2
    have hrun : loops s pre = { s with flag_hashtag := 1, flag_number := (d : Int) } := by
      rw [e1 s hm hc h3, loop_hash i1 s k1 hm hc h3,
        e2 { s with flag_hashtag := 1 } hm hc h3,
        loop_digit i2 { s with flag_hashtag := 1 } d hd k2 hm hc rfl h3,
        e3 { s with flag_hashtag := 1, flag_number := (d : Int) } hm hc h3,
        loop_hash i3 { s with flag_hashtag := 1, flag_number := (d : Int) } k3 hm hc h3]
      exact loops_no_keys r3 _ kr3 hm hc h3
    refine ⟨hrun, ?_⟩
    rw [hrun, loop_star star { s with flag_hashtag := 1, flag_number := (d : Int) } d hd hstar
      hm hc rfl rfl]
    cases s
    simp only at h1 h2 h3
    subst h1 h2 h3
    rfl

/-- Witness of `hash_keeps_digit`: from Idle the keys `#`, `3` and then `#`
leave `flag_number` at 3. -/
theorem hash_keeps_digit_witness :
    (loop ⟨35, 0, 0, 0, 0, [], 0⟩
      (run ⟨0, 0, 0, 0, 0, 0, ⟨fun _ => 0, 0⟩, fun _ => 0, [], []⟩
        [Action.iterate ⟨35, 0, 0, 0, 0, [], 0⟩, Action.timer,
         Action.iterate ⟨51, 0, 0, 0, 0, [], 0⟩])).flag_number = 3 :=
  ((hash_keeps_digit ⟨0, 0, 0, 0, 0, 0, ⟨fun _ => 0, 0⟩, fun _ => 0, [], []⟩
    [Action.iterate ⟨35, 0, 0, 0, 0, [], 0⟩, Action.timer,
     Action.iterate ⟨51, 0, 0, 0, 0, [], 0⟩]
    ⟨35, 0, 0, 0, 0, [], 0⟩ rfl rfl rfl).1.2.1).trans (by decide)

/-- C9 as stated fails: after the keys `#`, `2` an iteration with `#` leaves
`flag_number` at 2, not 0, and the keys `#`, `2`, `#`, `*` run command 2:
the sample 200 is stored at address 1 and the occupancy becomes 1. -/
theorem hash_discards_digit_counterexample :
    (loop ⟨35, 0, 0, 0, 0, [], 0⟩
      (run ⟨0, 0, 0, 0, 0, 0, ⟨fun _ => 0, 0⟩, fun _ => 0, [], []⟩
        [Action.iterate ⟨35, 0, 0, 0, 0, [], 0⟩,
         Action.iterate ⟨50, 0, 0, 0, 0, [], 0⟩])).flag_number = 2 ∧
    (loops ⟨0, 0, 0, 0, 0, 0, ⟨fun _ => 0, 0⟩, fun _ => 0, [], []⟩
        [⟨35, 0, 0, 0, 0, [], 0⟩, ⟨50, 0, 0, 0, 0, [], 0⟩, ⟨35, 0, 0, 0, 0, [], 0⟩,
         ⟨42, 800, 0, 0, 0, [], 0⟩]).eeprom 0 = 1 ∧
    (loops ⟨0, 0, 0, 0, 0, 0, ⟨fun _ => 0, 0⟩, fun _ => 0, [], []⟩
        [⟨35, 0, 0, 0, 0, [], 0⟩, ⟨50, 0, 0, 0, 0, [], 0⟩, ⟨35, 0, 0, 0, 0, [], 0⟩,
         ⟨42, 800, 0, 0, 0, [], 0⟩]).eeprom 1 = 200 := by
  decide

/-! ## The command dispatcher -/

/-- `str_cmp` reads its first argument no further than the first NUL: on a
buffer that holds a line it compares the line. -/
theorem str_cmp_from_holds (data : Nat → Nat) (txt : List Nat) (s2 : Nat → Nat)
    (hl : holds_line data txt) (k : Nat) :
    ∀ i, i ≤ txt.length →
      str_cmp_from data s2 k i = str_cmp_from (fun j => txt.getD j 0) s2 k i := by
  induction k with
  | zero => intro i _; rfl
  | succ k ih =>
    intro i hi
    rcases Nat.lt_or_ge i txt.length with hlt | hge
    · have hd : data i = txt.getD i 0 := hl.1 i hlt
      simp only [str_cmp_from, hd]
      rw [ih (i + 1) hlt]
    · have hie : i = txt.length := Nat.le_antisymm hi hge
      have hd : data i = 0 := by rw [hie]; exact hl.2
      have hg : txt.getD i 0 = 0 := by
        rw [hie]; simp
      simp only [str_cmp_from, hd, hg]
      split <;> rfl

/-- The same for `str_cmp`. -/
theorem str_cmp_holds (data : Nat → Nat) (txt : List Nat) (s2 : Nat → Nat)
    (hl : holds_line data txt) (len : Nat) :
    str_cmp data s2 len = str_cmp (fun j => txt.getD j 0) s2 len :=
  str_cmp_from_holds data txt s2 hl len 0 (Nat.zero_le _)

/-- Reading a buffer that holds a line as a C string gives the line. -/
theorem c_str_holds (data : Nat → Nat) (txt : List Nat) (hl : holds_line data txt)
    (hz : ∀ c ∈ txt, c ≠ 0) (fuel : Nat) :
    ∀ i, i ≤ txt.length → txt.length - i < fuel → c_str data fuel i = txt.drop i := by
  induction fuel with
  | zero => intro i _ h; omega
  | succ fuel ih =>
    intro i hi hf
    rcases Nat.lt_or_ge i txt.length with hlt | hge
    · have hd : data i = txt.getD i 0 := hl.1 i hlt
      have hg : txt.getD i 0 = txt[i] := by
        simp [List.getD_eq_getElem?_getD, List.getElem?_eq_getElem hlt]
      have hne : txt[i] ≠ 0 := hz _ (List.getElem_mem hlt)
      simp only [c_str, hd, hg, if_neg hne]
      rw [ih (i + 1) hlt (by omega)]
      exact (List.drop_eq_getElem_cons hlt).symm
    · have hie : i = txt.length := Nat.le_antisymm hi hge
      have hd : data i = 0 := by rw [hie]; exact hl.2
      have hnil : c_str data (fuel + 1) i = [] := by simp [c_str, hd]
      rw [hnil, List.drop_eq_nil_of_le hge]

/-- The keypad blocks and the automatic measurement leave the line buffer and
the command-ready flag alone. -/
theorem loop_keypad_serial_vars (inp : LoopInput) (s : State) :
    (loop_keypad inp s).Buffer = s.Buffer ∧
    (loop_keypad inp s).flag_check_command = s.flag_check_command := by
  have h1 : (loop_switch inp.key s).Buffer = s.Buffer ∧
      (loop_switch inp.key s).flag_check_command = s.flag_check_command := by
    unfold loop_switch; repeat' split
    all_goals exact ⟨rfl, rfl⟩
  have h2 : ∀ t : State, (loop_commands inp t).Buffer = t.Buffer ∧
      (loop_commands inp t).flag_check_command = t.flag_check_command := by
    intro t
    unfold loop_commands command_4 command_3 command_2 command_1
    repeat' split
    all_goals exact ⟨rfl, rfl⟩
  have h3 : ∀ t : State, (loop_measure inp t).Buffer = t.Buffer ∧
      (loop_measure inp t).flag_check_command = t.flag_check_command := by
    intro t
    unfold loop_measure
    split <;> exact ⟨rfl, rfl⟩
  unfold loop_keypad
  exact ⟨(h3 _).1.trans ((h2 _).1.trans h1.1), (h3 _).2.trans ((h2 _).2.trans h1.2)⟩

/-- With no automatic measurement pending and no keypad command completing,
the state at txt 310 differs from the initial one in the keypad flags
only. -/
theorem loop_keypad_quiet (inp : LoopInput) (s : State) (hm : s.measure ≠ 1)
    (hk : loop_commands inp (loop_switch inp.key s) = loop_switch inp.key s) :
    (loop_keypad inp s).eeprom = s.eeprom ∧ (loop_keypad inp s).serial = s.serial := by
  have h1 : (loop_switch inp.key s).eeprom = s.eeprom ∧
      (loop_switch inp.key s).serial = s.serial ∧
      (loop_switch inp.key s).measure = s.measure := by
    unfold loop_switch; repeat' split
    all_goals exact ⟨rfl, rfl, rfl⟩
  unfold loop_keypad
  rw [hk]
  unfold loop_measure
  rw [if_neg (by rw [h1.2.2]; exact hm)]
  exact ⟨h1.1, h1.2.1⟩

/-- All characters of the decimal text are digits. -/
theorem utoa_rev_digits (fuel : Nat) : ∀ n, ∀ c ∈ utoa_rev fuel n, 48 ≤ c ∧ c ≤ 57 := by
  induction fuel with
  | zero => intro n c hc; simp [utoa_rev] at hc
  | succ fuel ih =>
    intro n c hc
    simp only [utoa_rev, List.mem_cons] at hc
    rcases hc with h | h
    · subst h; omega
    · split at h
      · simp at h
      · exact ih _ c h

/-- Reading the digits back, least significant first, gives the number. -/
theorem utoa_rev_value (fuel : Nat) :
    ∀ n, n < fuel →
      (utoa_rev fuel n).foldr (fun c acc => 10 * acc + (c - 48)) 0 = n := by
  induction fuel with
  | zero => intro n h; omega
  | succ fuel ih =>
    intro n hn
    simp only [utoa_rev, List.foldr_cons]
    split
    · simp only [List.foldr_nil]; omega
    · rw [ih (n / 10) (by omega)]; omega

/-- The decimal text is made of digits. -/
theorem utoa_digits (n : Nat) : ∀ c ∈ utoa n, 48 ≤ c ∧ c ≤ 57 := by
  intro c hc
  unfold utoa at hc
  exact utoa_rev_digits (n + 1) n c (List.mem_reverse.mp hc)

/-- The decimal text is not empty. -/
theorem utoa_ne_nil (n : Nat) : utoa n ≠ [] := by
  unfold utoa
  simp [utoa_rev]

/-- Scanning the decimal text gives the number back. -/
theorem atoi_digits_utoa (n : Nat) : atoi_digits (utoa n) = n := by
  unfold atoi_digits utoa
  rw [List.foldl_reverse]
  exact utoa_rev_value (n + 1) n (Nat.lt_succ_self n)

/-- `%d` prints a natural number as its decimal text. -/
theorem fmt_d_nat (n : Nat) : fmt_d (n : Int) = utoa n := by
  unfold fmt_d
  rw [if_neg (by omega)]
  simp

/-- `sscanf` with `"%*s %d"` on the text `GET <n>` assigns `n`, for `n`
within the range of `int`. -/
theorem sscanf_GET (n : Nat) (hn : n ≤ 32767) :
    sscanf_s_d (ascii "GET " ++ utoa n) = some (n : Int) := by
  obtain ⟨d0, tl, hu⟩ : ∃ d0 tl, utoa n = d0 :: tl := by
    cases h : utoa n with
    | nil => exact absurd h (utoa_ne_nil n)
    | cons a b => exact ⟨a, b, rfl⟩
  have hd0 : 48 ≤ d0 ∧ d0 ≤ 57 := utoa_digits n d0 (by rw [hu]; simp)
  have hall : ∀ c ∈ d0 :: tl, isdigit c = true := by
    intro c hc
    have := utoa_digits n c (by rw [hu]; exact hc)
    simp [isdigit, this.1, this.2]
  have hsp : isspace d0 = false := by
    simp only [isspace, Bool.or_eq_false_iff, decide_eq_false_iff_not, Bool.and_eq_false_iff,
      Bool.decide_eq_false]
    omega
  have htw : List.takeWhile isdigit (d0 :: tl) = d0 :: tl :=
    List.takeWhile_eq_self_iff.mpr hall
  have hval : atoi_digits (d0 :: tl) = n := by rw [← hu]; exact atoi_digits_utoa n
  have hscan : scan_d (d0 :: tl) = some (n : Int) := by
    have h45 : d0 ≠ 45 := by omega
    have h43 : d0 ≠ 43 := by omega
    simp only [scan_d, List.dropWhile_cons, hsp, Bool.false_eq_true, if_false, List.head?_cons,
      Option.some.injEq, h45, h43, scan_digits, htw, hval]
    simp only [to_int16, reduceCtorEq, if_false, Option.some.injEq]
    omega
  rw [hu]
  have hpre : ascii "GET " ++ d0 :: tl = 71 :: 69 :: 84 :: 32 :: d0 :: tl := by
    simp [ascii]
  rw [hpre]
  have s71 : isspace 71 = false := by decide
  have s69 : isspace 69 = false := by decide
  have s84 : isspace 84 = false := by decide
  have s32 : isspace 32 = true := by decide
  simp [sscanf_s_d, List.dropWhile_cons, List.takeWhile_cons, s71, s69, s84, s32, hsp, hscan]

/-- C8: in every state with a command line ready, dispatching the buffer
"PING\0" writes "PONG\n" to the serial port once, after whatever the keypad
blocks and the automatic measurement did in that iteration, leaves the
EEPROM as the dispatcher found it, and leaves `tam_buffer` and
`flag_check_command` at 0; with no automatic measurement pending and no
keypad command completing, "PONG\n" is the only write and the EEPROM is the
one the iteration started with. -/
theorem dispatch_PING (inp : LoopInput) (s : State)
    (hc : s.flag_check_command = 1) (hl : holds_line s.Buffer.data (ascii "PING")) :
    (loop inp s).serial = (loop_keypad inp s).serial ++ [ascii "PONG\n"] ∧
    (loop inp s).eeprom = (loop_keypad inp s).eeprom ∧
    (loop inp s).Buffer.tam_buffer = 0 ∧
    (loop inp s).flag_check_command = 0 ∧
    (s.measure ≠ 1 → loop_commands inp (loop_switch inp.key s) = loop_switch inp.key s →
      (loop inp s).serial = s.serial ++ [ascii "PONG\n"] ∧ (loop inp s).eeprom = s.eeprom) := by
  have c1 : str_cmp s.Buffer.data (lit "PING") 4 = 1 := by
    rw [str_cmp_holds _ _ _ hl]; decide
  have c2 : str_cmp s.Buffer.data (lit "ID") 2 = 0 := by
    rw [str_cmp_holds _ _ _ hl]; decide
  have c3 : str_cmp s.Buffer.data (lit "MEASURE") 7 = 0 := by
    rw [str_cmp_holds _ _ _ hl]; decide
  have c4 : str_cmp s.Buffer.data (lit "MEMSTATUS") 9 = 0 := by
    rw [str_cmp_holds _ _ _ hl]; decide
  have c5 : str_cmp s.Buffer.data (lit "RESET") 5 = 0 := by
    rw [str_cmp_holds _ _ _ hl]; decide
  have c6 : str_cmp s.Buffer.data (lit "RECORD") 5 = 0 := by
    rw [str_cmp_holds _ _ _ hl]; decide
  have c7 : str_cmp s.Buffer.data (lit "GET") 3 = 0 := by
    rw [str_cmp_holds _ _ _ hl]; decide
  obtain ⟨hB, hF⟩ := loop_keypad_serial_vars inp s
  have hq := loop_keypad_quiet inp s
  have key : loop inp s =
      { loop_keypad inp s with
        flag_check_command := 0,
        serial := (loop_keypad inp s).serial ++ [ascii "PONG\n"],
        Buffer := buffer_clean s.Buffer } := by
    unfold loop
    generalize loop_keypad inp s = m at hB hF
    rw [hc] at hF
    simp [loop_flush, loop_dispatch, cmd_PING, cmd_ID, cmd_MEASURE, cmd_MEMSTATUS, cmd_RESET,
      cmd_RECORD, cmd_GET, hB, hF, c1, c2, c3, c4, c5, c6, c7]
  rw [key]
  refine ⟨rfl, rfl, rfl, rfl, ?_⟩
  intro hm hk
  obtain ⟨q1, q2⟩ := hq hm hk
  exact ⟨by simp only [q2], q1⟩

/-- Witness of `dispatch_PING`: the line "PING\n" received after power-up. -/
theorem dispatch_PING_witness :
    (loop no_input (serialEvent (power_on (fun a => a)) (ascii "PING\n"))).serial
      = [ascii "PONG\n"] ∧
    (loop no_input (serialEvent (power_on (fun a => a)) (ascii "PING\n"))).Buffer.tam_buffer
      = 0 :=
  ⟨((dispatch_PING no_input (serialEvent (power_on (fun a => a)) (ascii "PING\n")) (by decide)
      ⟨by decide, by decide⟩).2.2.2.2 (by decide) rfl).1,
   (dispatch_PING no_input (serialEvent (power_on (fun a => a)) (ascii "PING\n")) (by decide)
      ⟨by decide, by decide⟩).2.2.1⟩

/-- C7: with a command line ready, no automatic measurement pending and no
keypad command completing, dispatching the buffer "RESET\0" sets the byte at
address 0 to 0, leaves every other EEPROM byte unchanged, writes nothing to
the serial port and leaves `tam_buffer` at 0. -/
theorem dispatch_RESET (inp : LoopInput) (s : State)
    (hc : s.flag_check_command = 1) (hl : holds_line s.Buffer.data (ascii "RESET"))
    (hm : s.measure ≠ 1)
    (hk : loop_commands inp (loop_switch inp.key s) = loop_switch inp.key s) :
    (loop inp s).eeprom 0 = 0 ∧
    (∀ a, a ≠ 0 → (loop inp s).eeprom a = s.eeprom a) ∧
    (loop inp s).serial = s.serial ∧
    (loop inp s).Buffer.tam_buffer = 0 := by
  have c1 : str_cmp s.Buffer.data (lit "PING") 4 = 0 := by
    rw [str_cmp_holds _ _ _ hl]; decide
  have c2 : str_cmp s.Buffer.data (lit "ID") 2 = 0 := by
    rw [str_cmp_holds _ _ _ hl]; decide
  have c3 : str_cmp s.Buffer.data (lit "MEASURE") 7 = 0 := by
    rw [str_cmp_holds _ _ _ hl]; decide
  have c4 : str_cmp s.Buffer.data (lit "MEMSTATUS") 9 = 0 := by
    rw [str_cmp_holds _ _ _ hl]; decide
  have c5 : str_cmp s.Buffer.data (lit "RESET") 5 = 1 := by
    rw [str_cmp_holds _ _ _ hl]; decide
  have c6 : str_cmp s.Buffer.data (lit "RECORD") 5 = 0 := by
    rw [str_cmp_holds _ _ _ hl]; decide
  have c7 : str_cmp s.Buffer.data (lit "GET") 3 = 0 := by
    rw [str_cmp_holds _ _ _ hl]; decide
  obtain ⟨hB, hF⟩ := loop_keypad_serial_vars inp s
  obtain ⟨q1, q2⟩ := loop_keypad_quiet inp s hm hk
  have key : loop inp s =
      { loop_keypad inp s with
        flag_check_command := 0,
        eeprom := EEPROM_write (loop_keypad inp s).eeprom 0 0,
        Buffer := buffer_clean s.Buffer } := by
    have hbc : ∀ B : serial_buffer, (buffer_clean B).data = B.data := fun _ => rfl
    unfold loop
    generalize loop_keypad inp s = m at hB hF
    rw [hc] at hF
    simp [loop_flush, loop_dispatch, cmd_PING, cmd_ID, cmd_MEASURE, cmd_MEMSTATUS, cmd_RESET,
      cmd_RECORD, cmd_GET, hB, hF, hbc, c1, c2, c3, c4, c5, c6, c7]
  have e1 : (loop inp s).eeprom = EEPROM_write s.eeprom 0 0 := by rw [key, ← q1]
  have e2 : (loop inp s).serial = s.serial := by rw [key]; exact q2
  have e3 : (loop inp s).Buffer.tam_buffer = 0 := by rw [key]; rfl
  refine ⟨?_, ?_, e2, e3⟩
  · rw [e1]; unfold EEPROM_write; rw [if_pos rfl]
  · intro a ha
    rw [e1]; unfold EEPROM_write
    rw [if_neg ha]

/-- Witness of `dispatch_RESET`: the line "RESET\n" received after power-up
with three samples stored. -/
theorem dispatch_RESET_witness :
    (loop no_input (serialEvent (power_on (fun a => 3 + a)) (ascii "RESET\n"))).eeprom 0 = 0 ∧
    (loop no_input (serialEvent (power_on (fun a => 3 + a)) (ascii "RESET\n"))).eeprom 2 = 5 ∧
    (loop no_input (serialEvent (power_on (fun a => 3 + a)) (ascii "RESET\n"))).serial = [] :=
  ⟨(dispatch_RESET no_input (serialEvent (power_on (fun a => 3 + a)) (ascii "RESET\n"))
      (by decide) ⟨by decide, by decide⟩ (by decide)
      (loop_commands_idle no_input _ (by decide))).1,
   (dispatch_RESET no_input (serialEvent (power_on (fun a => 3 + a)) (ascii "RESET\n"))
      (by decide) ⟨by decide, by decide⟩ (by decide)
      (loop_commands_idle no_input _ (by decide))).2.1 2 (by decide),
   (dispatch_RESET no_input (serialEvent (power_on (fun a => 3 + a)) (ascii "RESET\n"))
      (by decide) ⟨by decide, by decide⟩ (by decide)
      (loop_commands_idle no_input _ (by decide))).2.2.1⟩

/-- A number below `10 ^ k` has at most `k` decimal digits. -/
theorem utoa_rev_length (fuel : Nat) :
    ∀ n k, 1 ≤ k → n < 10 ^ k → (utoa_rev fuel n).length ≤ k := by
  induction fuel with
  | zero => intro n k _ _; simp [utoa_rev]
  | succ fuel ih =>
    intro n k hk hn
    simp only [utoa_rev, List.length_cons]
    split
    · simpa using hk
    · rename_i h
      have hk2 : 2 ≤ k := by
        rcases Nat.lt_or_ge k 2 with h2 | h2
        · have hk1 : k = 1 := by omega
          subst hk1
          simp at hn
          omega
        · exact h2
      obtain ⟨j, rfl⟩ : ∃ j, k = j + 1 := ⟨k - 1, by omega⟩
      have hj : n / 10 < 10 ^ j := by
        rw [Nat.div_lt_iff_lt_mul (by decide)]
        rw [pow_succ] at hn
        exact hn
      have := ih (n / 10) j (by omega) hj
      omega

/-- What the dispatcher does with the buffer "GET <n>\0" for `n` within the
range of `int` and of at most five digits. -/
theorem loop_GET (inp : LoopInput) (s : State) (n : Nat) (hn : n ≤ 32767)
    (hc : s.flag_check_command = 1)
    (hl : holds_line s.Buffer.data (ascii "GET " ++ utoa n)) :
    loop inp s =
      { loop_keypad inp s with
        flag_check_command := 0,
        serial := (loop_keypad inp s).serial ++
          [ascii "EEPROM value[" ++ utoa n ++ ascii "] = "
            ++ utoa (EEPROM_read (loop_keypad inp s).eeprom n) ++ ascii "\n"],
        Buffer := buffer_clean s.Buffer } := by
  have hpre : ascii "GET " ++ utoa n = 71 :: 69 :: 84 :: 32 :: utoa n := by simp [ascii]
  have hlen : (utoa n).length ≤ 5 := by
    unfold utoa
    rw [List.length_reverse]
    exact utoa_rev_length (n + 1) n 5 (by decide) (by omega)
  have h0 : s.Buffer.data 0 = 71 := by
    have := hl.1 0 (by rw [hpre]; simp)
    rw [this, hpre]; rfl
  have h1 : s.Buffer.data 1 = 69 := by
    have := hl.1 1 (by rw [hpre]; simp)
    rw [this, hpre]; rfl
  have h2 : s.Buffer.data 2 = 84 := by
    have := hl.1 2 (by rw [hpre]; simp)
    rw [this, hpre]; rfl
  have c1 : str_cmp s.Buffer.data (lit "PING") 4 = 0 := by
    simp [str_cmp, str_cmp_from, lit, ascii, h0]
  have c2 : str_cmp s.Buffer.data (lit "ID") 2 = 0 := by
    simp [str_cmp, str_cmp_from, lit, ascii, h0]
  have c3 : str_cmp s.Buffer.data (lit "MEASURE") 7 = 0 := by
    simp [str_cmp, str_cmp_from, lit, ascii, h0]
  have c4 : str_cmp s.Buffer.data (lit "MEMSTATUS") 9 = 0 := by
    simp [str_cmp, str_cmp_from, lit, ascii, h0]
  have c5 : str_cmp s.Buffer.data (lit "RESET") 5 = 0 := by
    simp [str_cmp, str_cmp_from, lit, ascii, h0]
  have c6 : str_cmp s.Buffer.data (lit "RECORD") 5 = 0 := by
    simp [str_cmp, str_cmp_from, lit, ascii, h0]
  have c7 : str_cmp s.Buffer.data (lit "GET") 3 = 1 := by
    simp [str_cmp, str_cmp_from, lit, ascii, h0, h1, h2]
  have hz : ∀ c ∈ ascii "GET " ++ utoa n, c ≠ 0 := by
    intro c hcm
    rw [hpre] at hcm
    simp only [List.mem_cons] at hcm
    rcases hcm with h | h | h | h | h
    · omega
    · omega
    · omega
    · omega
    · have := utoa_digits n c h; omega
  have hstr : c_str s.Buffer.data MAX_BUFFER_SIZE 0 = ascii "GET " ++ utoa n := by
    have := c_str_holds s.Buffer.data _ hl hz MAX_BUFFER_SIZE 0 (Nat.zero_le _)
      (by rw [hpre]; simp [MAX_BUFFER_SIZE]; omega)
    simpa using this
  have hx : ((n : Int) % 256).toNat = n % 256 := by omega
  have hrd : ∀ mem : Nat → Nat, EEPROM_read mem (n % 256) = EEPROM_read mem n := by
    intro mem; simp [EEPROM_read]
  obtain ⟨hB, hF⟩ := loop_keypad_serial_vars inp s
  unfold loop
  generalize loop_keypad inp s = m at hB hF
  rw [hc] at hF
  simp [loop_flush, loop_dispatch, cmd_PING, cmd_ID, cmd_MEASURE, cmd_MEMSTATUS, cmd_RESET,
    cmd_RECORD, cmd_GET, hB, hF, c1, c2, c3, c4, c5, c6, c7, hstr, sscanf_GET n hn, hx, hrd,
    fmt_d_nat]

/-- C6: with a command line ready, for `n` from 0 to 255 dispatching the
buffer "GET <n>\0" writes "EEPROM value[<n>] = <v>\n" to the serial port,
`<v>` being the decimal value of the byte at address `n`, after whatever the
keypad blocks and the automatic measurement did in that iteration, and
leaves the EEPROM as the dispatcher found it; with no automatic measurement
pending and no keypad command completing, that is the only write, the byte is
the one stored when the iteration started, and no EEPROM byte changes. -/
theorem dispatch_GET (inp : LoopInput) (s : State) (n : Nat) (hn : n ≤ 255)
    (hc : s.flag_check_command = 1)
    (hl : holds_line s.Buffer.data (ascii "GET " ++ utoa n)) :
    (loop inp s).serial = (loop_keypad inp s).serial ++
      [ascii "EEPROM value[" ++ utoa n ++ ascii "] = "
        ++ utoa ((loop_keypad inp s).eeprom n % 256) ++ ascii "\n"] ∧
    (loop inp s).eeprom = (loop_keypad inp s).eeprom ∧
    (s.measure ≠ 1 → loop_commands inp (loop_switch inp.key s) = loop_switch inp.key s →
      (loop inp s).serial = s.serial ++
        [ascii "EEPROM value[" ++ utoa n ++ ascii "] = "
          ++ utoa (s.eeprom n % 256) ++ ascii "\n"] ∧
      (loop inp s).eeprom = s.eeprom) := by
  have key := loop_GET inp s n (by omega) hc hl
  have hrd : ∀ mem : Nat → Nat, EEPROM_read mem n = mem n % 256 := by
    intro mem
    have hlt : n % 256 = n := Nat.mod_eq_of_lt (by omega)
    unfold EEPROM_read
    rw [hlt]
  rw [hrd] at key
  have e1 : (loop inp s).serial = (loop_keypad inp s).serial ++
      [ascii "EEPROM value[" ++ utoa n ++ ascii "] = "
        ++ utoa ((loop_keypad inp s).eeprom n % 256) ++ ascii "\n"] := by rw [key]
  have e2 : (loop inp s).eeprom = (loop_keypad inp s).eeprom := by rw [key]
  refine ⟨e1, e2, ?_⟩
  intro hm hk
  obtain ⟨q1, q2⟩ := loop_keypad_quiet inp s hm hk
  rw [e1, e2, q1, q2]
  exact ⟨rfl, rfl⟩

/-- Witness of `dispatch_GET`: the line "GET 5\n" received after power-up,
the byte 8 stored at address 5. -/
theorem dispatch_GET_witness :
    (loop no_input (serialEvent (power_on (fun a => 3 + a)) (ascii "GET 5\n"))).serial
      = [ascii "EEPROM value[5] = 8\n"] :=
  (((dispatch_GET no_input (serialEvent (power_on (fun a => 3 + a)) (ascii "GET 5\n")) 5
      (by decide) (by decide) ⟨by decide, by decide⟩).2.2 (by decide)
      (loop_commands_idle no_input _ (by decide))).1).trans (by decide)

/-- What the dispatcher does with the buffer "RECORD\0": the sample is stored,
and the string written to the serial port is the one `out_buffer` held on
entry, whatever the sample. -/
theorem loop_RECORD (inp : LoopInput) (s : State)
    (hc : s.flag_check_command = 1) (hl : holds_line s.Buffer.data (ascii "RECORD")) :
    loop inp s =
      { loop_keypad inp s with
        flag_check_command := 0,
        eeprom := filesystem_write (loop_keypad inp s).eeprom ((inp.analog_record / 4) % 256),
        serial := (loop_keypad inp s).serial ++ [inp.out_buffer],
        Buffer := buffer_clean s.Buffer } := by
  have c1 : str_cmp s.Buffer.data (lit "PING") 4 = 0 := by
    rw [str_cmp_holds _ _ _ hl]; decide
  have c2 : str_cmp s.Buffer.data (lit "ID") 2 = 0 := by
    rw [str_cmp_holds _ _ _ hl]; decide
  have c3 : str_cmp s.Buffer.data (lit "MEASURE") 7 = 0 := by
    rw [str_cmp_holds _ _ _ hl]; decide
  have c4 : str_cmp s.Buffer.data (lit "MEMSTATUS") 9 = 0 := by
    rw [str_cmp_holds _ _ _ hl]; decide
  have c5 : str_cmp s.Buffer.data (lit "RESET") 5 = 0 := by
    rw [str_cmp_holds _ _ _ hl]; decide
  have c6 : str_cmp s.Buffer.data (lit "RECORD") 5 = 1 := by
    rw [str_cmp_holds _ _ _ hl]; decide
  have c7 : str_cmp s.Buffer.data (lit "GET") 3 = 0 := by
    rw [str_cmp_holds _ _ _ hl]; decide
  obtain ⟨hB, hF⟩ := loop_keypad_serial_vars inp s
  unfold loop
  generalize loop_keypad inp s = m at hB hF
  rw [hc] at hF
  simp [loop_flush, loop_dispatch, cmd_PING, cmd_ID, cmd_MEASURE, cmd_MEMSTATUS, cmd_RESET,
    cmd_RECORD, cmd_GET, hB, hF, c1, c2, c3, c4, c5, c6, c7]

/-- C5 fails on the code: after power-up with an empty log, the line
"RECORD\n" with the analog input at 400 stores the sample 100 at address 1,
but the serial port receives the string left in `out_buffer` (here the
"PONG\n" of an earlier response), not the decimal text of 100. -/
theorem record_writes_stale_out_buffer :
    (loop { no_input with analog_record := 400, out_buffer := ascii "PONG\n" }
      (serialEvent (power_on (fun _ => 0)) (ascii "RECORD\n"))).eeprom 1 = 100 ∧
    (loop { no_input with analog_record := 400, out_buffer := ascii "PONG\n" }
      (serialEvent (power_on (fun _ => 0)) (ascii "RECORD\n"))).eeprom 0 = 1 ∧
    (loop { no_input with analog_record := 400, out_buffer := ascii "PONG\n" }
      (serialEvent (power_on (fun _ => 0)) (ascii "RECORD\n"))).serial = [ascii "PONG\n"] ∧
    (loop { no_input with analog_record := 400, out_buffer := ascii "PONG\n" }
      (serialEvent (power_on (fun _ => 0)) (ascii "RECORD\n"))).serial ≠ [ascii "100\n"] ∧
    (loop { no_input with analog_record := 400, out_buffer := ascii "PONG\n" }
      (serialEvent (power_on (fun _ => 0)) (ascii "RECORD\n"))).serial ≠ [utoa 100] := by
  decide

/-- C4 fails on the code: after power-up the line "FOO\n" matches no command;
the iteration that dispatches it clears `flag_check_command` and writes
nothing, and leaves `tam_buffer` at 4, not 0. -/
theorem unmatched_line_keeps_buffer :
    (serialEvent (power_on (fun _ => 0)) (ascii "FOO\n")).flag_check_command = 1 ∧
    (loop no_input (serialEvent (power_on (fun _ => 0)) (ascii "FOO\n"))).Buffer.tam_buffer
      = 4 ∧
    (loop no_input (serialEvent (power_on (fun _ => 0)) (ascii "FOO\n"))).flag_check_command
      = 0 ∧
    (loop no_input (serialEvent (power_on (fun _ => 0)) (ascii "FOO\n"))).serial = [] := by
  decide

/-! ## Wraparound and reset -/

/-- C14: on an EEPROM whose address 0 holds 255, `filesystem_write` of any
sample wraps `n` to 0, so the result holds 0 at address 0 and is unchanged at
every other address: the occupancy is 0 and the sample is stored nowhere. -/
theorem filesystem_write_wraps (mem : Nat → Nat) (s : Nat) (h : mem 0 = 255) :
    (EEPROM_read mem 0 + 1) % 256 = 0 ∧
    filesystem_write mem s 0 = 0 ∧
    (∀ a, a ≠ 0 → filesystem_write mem s a = mem a) ∧
    filesystem_write mem s = EEPROM_write (EEPROM_write mem 0 s) 0 0 := by
  have hn : (EEPROM_read mem 0 + 1) % 256 = 0 := by
    simp [EEPROM_read, h]
  refine ⟨hn, ?_, ?_, ?_⟩
  · simp [filesystem_write, EEPROM_write, hn]
  · intro a ha
    simp [filesystem_write, EEPROM_write, hn, ha]
  · simp only [filesystem_write, hn]

/-- Witness of `filesystem_write_wraps`: the sample 77 written to a full
log. -/
theorem filesystem_write_wraps_witness :
    filesystem_write (fun a => if a = 0 then 255 else 9) 77 0 = 0 ∧
    filesystem_write (fun a => if a = 0 then 255 else 9) 77 255 = 9 :=
  ⟨(filesystem_write_wraps (fun a => if a = 0 then 255 else 9) 77 rfl).2.1,
   (filesystem_write_wraps (fun a => if a = 0 then 255 else 9) 77 rfl).2.2.1 255 (by decide)⟩

/-- C15: `buffer_clean` twice is `buffer_clean` once, and `EEPROM_write(0, 0)`
twice is `EEPROM_write(0, 0)` once. -/
theorem reset_idempotent :
    (∀ B : serial_buffer, buffer_clean (buffer_clean B) = buffer_clean B) ∧
    (∀ mem : Nat → Nat, EEPROM_write (EEPROM_write mem 0 0) 0 0 = EEPROM_write mem 0 0) := by
  constructor
  · intro B; rfl
  · intro mem
    funext a
    simp only [EEPROM_write]
    split <;> rfl

/-! ## Dispatch by prefix -/

/-- Against a name without NUL in the compared part, `str_cmp` returns 0 or
1, and 1 exactly when the compared characters are equal. -/
theorem str_cmp_from_first_len (s1 s2 : Nat → Nat) (k : Nat) :
    ∀ i, (∀ j, i ≤ j → j < i + k → s2 j ≠ 0) →
      (str_cmp_from s1 s2 k i = 1 ↔ ∀ j, i ≤ j → j < i + k → s1 j = s2 j) ∧
      (str_cmp_from s1 s2 k i = 0 ∨ str_cmp_from s1 s2 k i = 1) := by
  induction k with
  | zero =>
    intro i _
    refine ⟨⟨fun _ j h1 h2 => by omega, fun _ => rfl⟩, Or.inr rfl⟩
  | succ k ih =>
    intro i hnz
    have hrec := ih (i + 1) (fun j h1 h2 => hnz j (by omega) (by omega))
    by_cases hne : s1 i = s2 i
    · have hz : s1 i ≠ 0 := by rw [hne]; exact hnz i (Nat.le_refl _) (by omega)
      have hstep : str_cmp_from s1 s2 (k + 1) i = str_cmp_from s1 s2 k (i + 1) := by
        simp only [str_cmp_from]
        rw [if_neg (fun h => h hne), if_neg hz]
      rw [hstep]
      refine ⟨⟨fun h j h1 h2 => ?_, fun h => ?_⟩, hrec.2⟩
      · rcases Nat.eq_or_lt_of_le h1 with he | hl
        · rw [← he]; exact hne
        · exact hrec.1.mp h j hl (by omega)
      · exact hrec.1.mpr (fun j h1 h2 => h j (by omega) (by omega))
    · have hstep : str_cmp_from s1 s2 (k + 1) i = 0 := by
        simp [str_cmp_from, hne]
      rw [hstep]
      refine ⟨⟨fun h => by simp at h, fun h => absurd (h i (Nat.le_refl _) (by omega)) hne⟩,
        Or.inl rfl⟩

/-- The same for `str_cmp`. -/
theorem str_cmp_first_len (s1 s2 : Nat → Nat) (len : Nat) (hnz : ∀ j, j < len → s2 j ≠ 0) :
    (str_cmp s1 s2 len = 1 ↔ ∀ j, j < len → s1 j = s2 j) ∧
    (str_cmp s1 s2 len = 0 ∨ str_cmp s1 s2 len = 1) := by
  have h := str_cmp_from_first_len s1 s2 len 0 (fun j _ h2 => hnz j (by omega))
  unfold str_cmp
  refine ⟨⟨fun e j hj => h.1.mp e j (Nat.zero_le _) (by omega),
    fun e => h.1.mpr (fun j _ h2 => e j (by omega))⟩, h.2⟩

/-- What the dispatcher does with the buffer "IDENTIFY\0": the ID branch
answers. -/
theorem loop_IDENTIFY (inp : LoopInput) (s : State)
    (hc : s.flag_check_command = 1) (hl : holds_line s.Buffer.data (ascii "IDENTIFY")) :
    loop inp s =
      { loop_keypad inp s with
        flag_check_command := 0,
        serial := (loop_keypad inp s).serial ++ [ascii "ISA E JULIA\n"],
        Buffer := buffer_clean s.Buffer } := by
  have c1 : str_cmp s.Buffer.data (lit "PING") 4 = 0 := by
    rw [str_cmp_holds _ _ _ hl]; decide
  have c2 : str_cmp s.Buffer.data (lit "ID") 2 = 1 := by
    rw [str_cmp_holds _ _ _ hl]; decide
  have c3 : str_cmp s.Buffer.data (lit "MEASURE") 7 = 0 := by
    rw [str_cmp_holds _ _ _ hl]; decide
  have c4 : str_cmp s.Buffer.data (lit "MEMSTATUS") 9 = 0 := by
    rw [str_cmp_holds _ _ _ hl]; decide
  have c5 : str_cmp s.Buffer.data (lit "RESET") 5 = 0 := by
    rw [str_cmp_holds _ _ _ hl]; decide
  have c6 : str_cmp s.Buffer.data (lit "RECORD") 5 = 0 := by
    rw [str_cmp_holds _ _ _ hl]; decide
  have c7 : str_cmp s.Buffer.data (lit "GET") 3 = 0 := by
    rw [str_cmp_holds _ _ _ hl]; decide
  obtain ⟨hB, hF⟩ := loop_keypad_serial_vars inp s
  unfold loop
  generalize loop_keypad inp s = m at hB hF
  rw [hc] at hF
  simp [loop_flush, loop_dispatch, cmd_PING, cmd_ID, cmd_MEASURE, cmd_MEMSTATUS, cmd_RESET,
    cmd_RECORD, cmd_GET, hB, hF, c1, c2, c3, c4, c5, c6, c7]

/-- C12: for PING/4, ID/2, MEASURE/7, MEMSTATUS/9, RESET/5 and GET/3,
`str_cmp(Buffer.data, name, len)` returns 1 exactly when the first `len`
characters of the buffer are those of the name, whatever follows, and 0
otherwise; with a command line ready the buffer "IDENTIFY\0" is answered by
the ID branch with the identification string. -/
theorem prefix_dispatch (data : Nat → Nat) (inp : LoopInput) (s : State)
    (hc : s.flag_check_command = 1) (hl : holds_line s.Buffer.data (ascii "IDENTIFY")) :
    ((str_cmp data (lit "PING") 4 = 1 ↔ ∀ i, i < 4 → data i = lit "PING" i) ∧
     (str_cmp data (lit "PING") 4 = 0 ∨ str_cmp data (lit "PING") 4 = 1)) ∧
    ((str_cmp data (lit "ID") 2 = 1 ↔ ∀ i, i < 2 → data i = lit "ID" i) ∧
     (str_cmp data (lit "ID") 2 = 0 ∨ str_cmp data (lit "ID") 2 = 1)) ∧
    ((str_cmp data (lit "MEASURE") 7 = 1 ↔ ∀ i, i < 7 → data i = lit "MEASURE" i) ∧
     (str_cmp data (lit "MEASURE") 7 = 0 ∨ str_cmp data (lit "MEASURE") 7 = 1)) ∧
    ((str_cmp data (lit "MEMSTATUS") 9 = 1 ↔ ∀ i, i < 9 → data i = lit "MEMSTATUS" i) ∧
     (str_cmp data (lit "MEMSTATUS") 9 = 0 ∨ str_cmp data (lit "MEMSTATUS") 9 = 1)) ∧
    ((str_cmp data (lit "RESET") 5 = 1 ↔ ∀ i, i < 5 → data i = lit "RESET" i) ∧
     (str_cmp data (lit "RESET") 5 = 0 ∨ str_cmp data (lit "RESET") 5 = 1)) ∧
    ((str_cmp data (lit "GET") 3 = 1 ↔ ∀ i, i < 3 → data i = lit "GET" i) ∧
     (str_cmp data (lit "GET") 3 = 0 ∨ str_cmp data (lit "GET") 3 = 1)) ∧
    str_cmp s.Buffer.data (lit "ID") 2 = 1 ∧
    (loop inp s).serial = (loop_keypad inp s).serial ++ [ascii "ISA E JULIA\n"] := by
  refine ⟨str_cmp_first_len data _ 4 (by decide), str_cmp_first_len data _ 2 (by decide),
    str_cmp_first_len data _ 7 (by decide), str_cmp_first_len data _ 9 (by decide),
    str_cmp_first_len data _ 5 (by decide), str_cmp_first_len data _ 3 (by decide), ?_, ?_⟩
  · rw [str_cmp_holds _ _ _ hl]; decide
  · rw [loop_IDENTIFY inp s hc hl]

/-- Witness of `prefix_dispatch`: the line "IDENTIFY\n" received after
power-up is answered with the identification string. -/
theorem prefix_dispatch_witness :
    (loop no_input (serialEvent (power_on (fun _ => 0)) (ascii "IDENTIFY\n"))).serial
      = [ascii "ISA E JULIA\n"] :=
  ((prefix_dispatch (lit "IDENTIFY") no_input
      (serialEvent (power_on (fun _ => 0)) (ascii "IDENTIFY\n")) (by decide)
      ⟨by decide, by decide⟩).2.2.2.2.2.2.2).trans (by decide)

/-- On every buffer each of the seven `str_cmp` tests of the dispatcher
returns 0 or 1, and at most one of them returns 1. -/
theorem str_cmp_tests_exclusive (data : Nat → Nat) :
    ((str_cmp data (lit "PING") 4 = 0 ∨ str_cmp data (lit "PING") 4 = 1) ∧
     (str_cmp data (lit "ID") 2 = 0 ∨ str_cmp data (lit "ID") 2 = 1) ∧
     (str_cmp data (lit "MEASURE") 7 = 0 ∨ str_cmp data (lit "MEASURE") 7 = 1) ∧
     (str_cmp data (lit "MEMSTATUS") 9 = 0 ∨ str_cmp data (lit "MEMSTATUS") 9 = 1) ∧
     (str_cmp data (lit "RESET") 5 = 0 ∨ str_cmp data (lit "RESET") 5 = 1) ∧
     (str_cmp data (lit "RECORD") 5 = 0 ∨ str_cmp data (lit "RECORD") 5 = 1) ∧
     (str_cmp data (lit "GET") 3 = 0 ∨ str_cmp data (lit "GET") 3 = 1)) ∧
    str_cmp data (lit "PING") 4 + str_cmp data (lit "ID") 2 + str_cmp data (lit "MEASURE") 7
      + str_cmp data (lit "MEMSTATUS") 9 + str_cmp data (lit "RESET") 5
      + str_cmp data (lit "RECORD") 5 + str_cmp data (lit "GET") 3 ≤ 1 := by
  have p1 := str_cmp_first_len data (lit "PING") 4 (by decide)
  have p2 := str_cmp_first_len data (lit "ID") 2 (by decide)
  have p3 := str_cmp_first_len data (lit "MEASURE") 7 (by decide)
  have p4 := str_cmp_first_len data (lit "MEMSTATUS") 9 (by decide)
  have p5 := str_cmp_first_len data (lit "RESET") 5 (by decide)
  have p6 := str_cmp_first_len data (lit "RECORD") 5 (by decide)
  have p7 := str_cmp_first_len data (lit "GET") 3 (by decide)
  have q1 : str_cmp data (lit "PING") 4 = 0 ∨
      (str_cmp data (lit "PING") 4 = 1 ∧ data 0 = 80) := by
    rcases p1.2 with h | h
    · exact Or.inl h
    · exact Or.inr ⟨h, p1.1.mp h 0 (by decide)⟩
  have q2 : str_cmp data (lit "ID") 2 = 0 ∨
      (str_cmp data (lit "ID") 2 = 1 ∧ data 0 = 73) := by
    rcases p2.2 with h | h
    · exact Or.inl h
    · exact Or.inr ⟨h, p2.1.mp h 0 (by decide)⟩
  have q3 : str_cmp data (lit "MEASURE") 7 = 0 ∨
      (str_cmp data (lit "MEASURE") 7 = 1 ∧ data 0 = 77 ∧ data 2 = 65) := by
    rcases p3.2 with h | h
    · exact Or.inl h
    · exact Or.inr ⟨h, p3.1.mp h 0 (by decide), p3.1.mp h 2 (by decide)⟩
  have q4 : str_cmp data (lit "MEMSTATUS") 9 = 0 ∨
      (str_cmp data (lit "MEMSTATUS") 9 = 1 ∧ data 0 = 77 ∧ data 2 = 77) := by
    rcases p4.2 with h | h
    · exact Or.inl h
    · exact Or.inr ⟨h, p4.1.mp h 0 (by decide), p4.1.mp h 2 (by decide)⟩
  have q5 : str_cmp data (lit "RESET") 5 = 0 ∨
      (str_cmp data (lit "RESET") 5 = 1 ∧ data 0 = 82 ∧ data 2 = 83) := by
    rcases p5.2 with h | h
    · exact Or.inl h
    · exact Or.inr ⟨h, p5.1.mp h 0 (by decide), p5.1.mp h 2 (by decide)⟩
  have q6 : str_cmp data (lit "RECORD") 5 = 0 ∨
      (str_cmp data (lit "RECORD") 5 = 1 ∧ data 0 = 82 ∧ data 2 = 67) := by
    rcases p6.2 with h | h
    · exact Or.inl h
    · exact Or.inr ⟨h, p6.1.mp h 0 (by decide), p6.1.mp h 2 (by decide)⟩
  have q7 : str_cmp data (lit "GET") 3 = 0 ∨
      (str_cmp data (lit "GET") 3 = 1 ∧ data 0 = 71) := by
    rcases p7.2 with h | h
    · exact Or.inl h
    · exact Or.inr ⟨h, p7.1.mp h 0 (by decide)⟩
  refine ⟨⟨p1.2, p2.2, p3.2, p4.2, p5.2, p6.2, p7.2⟩, ?_⟩
  generalize str_cmp data (lit "PING") 4 = r1 at q1
  generalize str_cmp data (lit "ID") 2 = r2 at q2
  generalize str_cmp data (lit "MEASURE") 7 = r3 at q3
  generalize str_cmp data (lit "MEMSTATUS") 9 = r4 at q4
  generalize str_cmp data (lit "RESET") 5 = r5 at q5
  generalize str_cmp data (lit "RECORD") 5 = r6 at q6
  generalize str_cmp data (lit "GET") 3 = r7 at q7
  generalize data 0 = d0 at q1 q2 q3 q4 q5 q6 q7
  generalize data 2 = d2 at q3 q4 q5 q6
  omega

/-- C20: with a command line ready, for `n` from 256 to 32767 dispatching the
buffer "GET <n>\0" writes "EEPROM value[<n>] = <v>\n", `<n>` echoed in full
and `<v>` the decimal value of the byte at address `n mod 256`; "GET 256"
reports the byte at address 0, the occupancy counter. -/
theorem dispatch_GET_truncates (inp : LoopInput) (s : State) (n : Nat)
    (hlo : 256 ≤ n) (hhi : n ≤ 32767)
    (hc : s.flag_check_command = 1)
    (hl : holds_line s.Buffer.data (ascii "GET " ++ utoa n)) :
    (loop inp s).serial = (loop_keypad inp s).serial ++
      [ascii "EEPROM value[" ++ utoa n ++ ascii "] = "
        ++ utoa ((loop_keypad inp s).eeprom (n % 256) % 256) ++ ascii "\n"] ∧
    (loop inp s).eeprom = (loop_keypad inp s).eeprom ∧
    (s.measure ≠ 1 → loop_commands inp (loop_switch inp.key s) = loop_switch inp.key s →
      (loop inp s).serial = s.serial ++
        [ascii "EEPROM value[" ++ utoa n ++ ascii "] = "
          ++ utoa (s.eeprom (n % 256) % 256) ++ ascii "\n"]) ∧
    (n = 256 →
      (loop inp s).serial = (loop_keypad inp s).serial ++
        [ascii "EEPROM value[256] = "
          ++ utoa (EEPROM_read (loop_keypad inp s).eeprom 0) ++ ascii "\n"]) := by
  have _ := hlo
  have key := loop_GET inp s n hhi hc hl
  have e1 : (loop inp s).serial = (loop_keypad inp s).serial ++
      [ascii "EEPROM value[" ++ utoa n ++ ascii "] = "
        ++ utoa ((loop_keypad inp s).eeprom (n % 256) % 256) ++ ascii "\n"] := by
    rw [key]; rfl
  have e2 : (loop inp s).eeprom = (loop_keypad inp s).eeprom := by rw [key]
  refine ⟨e1, e2, ?_, ?_⟩
  · intro hm hk
    obtain ⟨q1, q2⟩ := loop_keypad_quiet inp s hm hk
    rw [e1, q1, q2]
  · intro h256
    subst h256
    rw [e1]
    have h0 : ascii "EEPROM value[" ++ utoa 256 ++ ascii "] = " = ascii "EEPROM value[256] = " := by
      decide
    rw [h0]
    rfl

/-- Witness of `dispatch_GET_truncates`: the line "GET 256\n" received after
power-up reports the 7 stored at address 0. -/
theorem dispatch_GET_truncates_witness :
    (loop no_input (serialEvent (power_on (fun a => 7 + a)) (ascii "GET 256\n"))).serial
      = [ascii "EEPROM value[256] = 7\n"] :=
  (((dispatch_GET_truncates no_input (serialEvent (power_on (fun a => 7 + a)) (ascii "GET 256\n"))
      256 (by decide) (by decide) (by decide) ⟨by decide, by decide⟩).2.2.1 (by decide)
      (loop_commands_idle no_input _ (by decide)))).trans (by decide)

/-! ## Keypad invariant and ignored keys -/

/-- C16: in every state reached from one with the three keypad flags at 0,
whatever keys are pressed, whenever the timer fires and whatever the serial
port receives, `flag_star` is 0, `flag_number` is one of 0..4, and
`flag_number` is not 0 only with `flag_hashtag` at 1. -/
theorem keypad_invariant (s0 : State) (acts : List Action)
    (hh : s0.flag_hashtag = 0) (hn : s0.flag_number = 0) (hs : s0.flag_star = 0) :
    (run s0 acts).flag_star = 0 ∧
    ((run s0 acts).flag_number = 0 ∨ (run s0 acts).flag_number = 1 ∨
     (run s0 acts).flag_number = 2 ∨ (run s0 acts).flag_number = 3 ∨
     (run s0 acts).flag_number = 4) ∧
    ((run s0 acts).flag_number ≠ 0 → (run s0 acts).flag_hashtag = 1) := by
  have _ := hh
  obtain ⟨h1, h2⟩ := keypad_inv_run acts s0 hs (Or.inl hn)
  refine ⟨h1, ?_, ?_⟩
  · rcases h2 with h | ⟨_, h | h | h | h⟩
    · exact Or.inl h
    · exact Or.inr (Or.inl h)
    · exact Or.inr (Or.inr (Or.inl h))
    · exact Or.inr (Or.inr (Or.inr (Or.inl h)))
    · exact Or.inr (Or.inr (Or.inr (Or.inr h)))
  · intro hne
    rcases h2 with h | ⟨h, _⟩
    · exact absurd h hne
    · exact h

/-- Witness of `keypad_invariant`: after the keys `#`, `2`, `*`, `*`, `7`
from power-up. -/
theorem keypad_invariant_witness :
    (run (power_on (fun _ => 0))
      [Action.iterate { no_input with key := 35 }, Action.iterate { no_input with key := 50 },
       Action.timer, Action.iterate { no_input with key := 42 },
       Action.iterate { no_input with key := 42 },
       Action.iterate { no_input with key := 55 }]).flag_star = 0 :=
  (keypad_invariant (power_on (fun _ => 0))
      [Action.iterate { no_input with key := 35 }, Action.iterate { no_input with key := 50 },
       Action.timer, Action.iterate { no_input with key := 42 },
       Action.iterate { no_input with key := 42 },
       Action.iterate { no_input with key := 55 }] rfl rfl rfl).1

/-- A key other than `#`, `1`..`4` and `*` leaves the `switch` without any
assignment. -/
theorem loop_switch_other (key : Nat) (s : State)
    (hk : key ≠ 35 ∧ key ≠ 49 ∧ key ≠ 50 ∧ key ≠ 51 ∧ key ≠ 52 ∧ key ≠ 42) :
    loop_switch key s = s := by
  obtain ⟨h1, h2, h3, h4, h5, h6⟩ := hk
  unfold loop_switch
  rw [if_neg h1, if_neg h2, if_neg h3, if_neg h4, if_neg h5, if_neg h6]

/-- C17: in every state reached from one with no digit recorded and
`flag_star` clear, an iteration with a key other than `#`, `1`..`4` and `*`
(`0`, `5`..`9` and the no-key value included) leaves the three keypad flags,
`mode_auto` and the LED as they were, and the keypad blocks change nothing at
all; from Idle, with no automatic measurement pending and no command line
ready, the keys `#`, `5`, `*` leave the whole state as it was. -/
theorem ignored_key (s0 : State) (acts : List Action) (inp : LoopInput)
    (hn : s0.flag_number = 0) (hs : s0.flag_star = 0)
    (hk : inp.key ≠ 35 ∧ inp.key ≠ 49 ∧ inp.key ≠ 50 ∧ inp.key ≠ 51 ∧ inp.key ≠ 52 ∧
      inp.key ≠ 42) :
    ((loop inp (run s0 acts)).flag_hashtag = (run s0 acts).flag_hashtag ∧
     (loop inp (run s0 acts)).flag_number = (run s0 acts).flag_number ∧
     (loop inp (run s0 acts)).flag_star = (run s0 acts).flag_star ∧
     (loop inp (run s0 acts)).mode_auto = (run s0 acts).mode_auto ∧
     (loop inp (run s0 acts)).led = (run s0 acts).led) ∧
    loop_commands inp (loop_switch inp.key (run s0 acts)) = run s0 acts ∧
    ∀ (t : State) (inps : List LoopInput),
      t.flag_hashtag = 0 → t.flag_number = 0 → t.flag_star = 0 →
      t.measure ≠ 1 → t.flag_check_command ≠ 1 →
      keys_of inps = [35, 53, 42] → loops t inps = t := by
  obtain ⟨rs, _⟩ := keypad_inv_run acts s0 hs (Or.inl hn)
  have hcmd : loop_commands inp (loop_switch inp.key (run s0 acts)) = run s0 acts := by
    rw [loop_switch_other inp.key _ hk, loop_commands_idle inp _ (by rw [rs]; decide)]
  refine ⟨?_, hcmd, ?_⟩
  · have hv := loop_keypad_vars inp (run s0 acts)
    rw [hcmd] at hv
    exact hv
  · intro t inps h1 h2 h3 hm hc hkeys
    obtain ⟨i1, r1, k1, kr1, e1⟩ := loops_key_cons inps 35 [53, 42] hkeys
    obtain ⟨i2, r2, k2, kr2, e2⟩ := loops_key_cons r1 53 [42] kr1
    obtain ⟨i3, r3, k3, kr3, e3⟩ := loops_key_cons r2 42 [] kr2
    have h5 : loop i2 { t with flag_hashtag := 1 } = { t with flag_hashtag := 1 } := by
      rw [loop_quiet i2 { t with flag_hashtag := 1 } hm hc,
        loop_switch_other i2.key { t with flag_hashtag := 1 } (by rw [k2]; decide),
        loop_commands_idle i2 { t with flag_hashtag := 1 } (by simp only; rw [h3]; decide)]
    have hself : { t with flag_hashtag := 0 } = t := by
      cases t; simp only at h1; subst h1; rfl
    rw [e1 t hm hc h3, loop_hash i1 t k1 hm hc h3, e2 { t with flag_hashtag := 1 } hm hc h3, h5,
      e3 { t with flag_hashtag := 1 } hm hc h3,
      loop_star_no_digit i3 { t with flag_hashtag := 1 } k3 hm hc h2]
    simp only
    rw [hself]
    exact loops_no_keys r3 t kr3 hm hc h3

/-- Witness of `ignored_key`: the key `5` pressed after `#`, `2` from
power-up leaves `flag_number` at 2. -/
theorem ignored_key_witness :
    (loop { no_input with key := 53 }
      (run (power_on (fun _ => 0))
        [Action.iterate { no_input with key := 35 },
         Action.iterate { no_input with key := 50 }])).flag_number = 2 :=
  ((ignored_key (power_on (fun _ => 0))
      [Action.iterate { no_input with key := 35 }, Action.iterate { no_input with key := 50 }]
      { no_input with key := 53 } rfl rfl (by decide)).1.2.1).trans (by decide)

/-! ## The serial handler and the stuck dispatcher -/

/-- With room in the buffer, a newline stores NUL as the last byte and
raises the command-ready flag. -/
theorem serialEvent_newline_room (s : State) (h : s.Buffer.tam_buffer < MAX_BUFFER_SIZE) :
    (serialEvent s [10]).flag_check_command = 1 ∧
    (serialEvent s [10]).Buffer.tam_buffer = s.Buffer.tam_buffer + 1 ∧
    (serialEvent s [10]).Buffer.data ((serialEvent s [10]).Buffer.tam_buffer - 1) = 0 := by
  simp [serialEvent, buffer_add, h]

set_option maxRecDepth 100000 in
/-- C13 fails on the code: after power-up, thirty characters `A` and then a
newline leave the buffer full; `buffer_add('\0')` is dropped and
`flag_check_command` is raised all the same, so the last stored byte,
`data[29]`, is `A` and no NUL is in the buffer. -/
theorem newline_on_full_buffer_drops_terminator :
    (serialEvent (power_on (fun _ => 0)) (List.replicate 30 65 ++ [10])).flag_check_command
      = 1 ∧
    (serialEvent (power_on (fun _ => 0)) (List.replicate 30 65 ++ [10])).Buffer.tam_buffer
      = 30 ∧
    (serialEvent (power_on (fun _ => 0)) (List.replicate 30 65 ++ [10])).Buffer.data 29
      = 65 ∧
    ∀ i, i < 30 →
      (serialEvent (power_on (fun _ => 0)) (List.replicate 30 65 ++ [10])).Buffer.data i
        ≠ 0 := by
  decide

/-- `str_cmp` reads its first argument no further than a NUL it holds. -/
theorem str_cmp_from_agree_nul (d d2 s2 : Nat → Nat) (p : Nat) (hp : d p = 0)
    (ha : ∀ i, i ≤ p → d2 i = d i) (k : Nat) :
    ∀ i, i ≤ p → str_cmp_from d2 s2 k i = str_cmp_from d s2 k i := by
  induction k with
  | zero => intro i _; rfl
  | succ k ih =>
    intro i hi
    simp only [str_cmp_from, ha i hi]
    rcases Nat.eq_or_lt_of_le hi with he | hl
    · have hz : d i = 0 := by rw [he]; exact hp
      simp only [hz, if_true]
    · rw [ih (i + 1) hl]

/-- `str_cmp` reads its first argument no further than `len` characters. -/
theorem str_cmp_from_agree_len (d d2 s2 : Nat → Nat) (k : Nat) :
    ∀ i, (∀ j, j < i + k → d2 j = d j) → str_cmp_from d2 s2 k i = str_cmp_from d s2 k i := by
  induction k with
  | zero => intro i _; rfl
  | succ k ih =>
    intro i ha
    simp only [str_cmp_from, ha i (by omega)]
    rw [ih (i + 1) (fun j hj => ha j (by omega))]

/-- On a sealed buffer the stored characters decide every comparison of at
most nine characters. -/
theorem str_cmp_sealed (B : serial_buffer) (d2 s2 : Nat → Nat) (len : Nat) (hlen : len ≤ 9)
    (hs : sealed B) (ha : ∀ i, i < B.tam_buffer → d2 i = B.data i) :
    str_cmp d2 s2 len = str_cmp B.data s2 len := by
  unfold str_cmp
  rcases hs with ⟨p, hp, hz⟩ | h9
  · exact str_cmp_from_agree_nul B.data d2 s2 p hz (fun i hi => ha i (by omega)) len 0
      (Nat.zero_le _)
  · exact str_cmp_from_agree_len B.data d2 s2 len 0 (fun j hj => ha j (by omega))

/-- On a sealed buffer that matches no command, no later content that keeps
the stored characters matches one. -/
theorem no_match_sealed (B : serial_buffer) (d2 : Nat → Nat) (hs : sealed B)
    (ha : ∀ i, i < B.tam_buffer → d2 i = B.data i) (hno : no_match B.data) :
    no_match d2 := by
  obtain ⟨h1, h2, h3, h4, h5, h6, h7⟩ := hno
  unfold no_match
  rw [str_cmp_sealed B d2 (lit "PING") 4 (by decide) hs ha,
    str_cmp_sealed B d2 (lit "ID") 2 (by decide) hs ha,
    str_cmp_sealed B d2 (lit "MEASURE") 7 (by decide) hs ha,
    str_cmp_sealed B d2 (lit "MEMSTATUS") 9 (by decide) hs ha,
    str_cmp_sealed B d2 (lit "RESET") 5 (by decide) hs ha,
    str_cmp_sealed B d2 (lit "RECORD") 5 (by decide) hs ha,
    str_cmp_sealed B d2 (lit "GET") 3 (by decide) hs ha]
  exact ⟨h1, h2, h3, h4, h5, h6, h7⟩

/-- `buffer_add` never shortens the buffer and keeps the stored
characters. -/
theorem buffer_add_keeps (B : serial_buffer) (c : Nat) :
    B.tam_buffer ≤ (buffer_add B c).1.tam_buffer ∧
    ∀ i, i < B.tam_buffer → (buffer_add B c).1.data i = B.data i := by
  unfold buffer_add
  split
  · refine ⟨Nat.le_succ _, fun i hi => ?_⟩
    simp only
    rw [if_neg (by omega)]
  · exact ⟨Nat.le_refl _, fun _ _ => rfl⟩

/-- The serial handler never shortens the buffer and keeps the stored
characters. -/
theorem serialEvent_keeps (cs : List Nat) :
    ∀ s : State, s.Buffer.tam_buffer ≤ (serialEvent s cs).Buffer.tam_buffer ∧
      ∀ i, i < s.Buffer.tam_buffer → (serialEvent s cs).Buffer.data i = s.Buffer.data i := by
  induction cs with
  | nil => intro s; exact ⟨Nat.le_refl _, fun _ _ => rfl⟩
  | cons c cs ih =>
    intro s
    unfold serialEvent
    split
    · obtain ⟨a1, a2⟩ := buffer_add_keeps s.Buffer 0
      obtain ⟨b1, b2⟩ := ih { s with Buffer := (buffer_add s.Buffer 0).1, flag_check_command := 1 }
      exact ⟨Nat.le_trans a1 b1, fun i hi => (b2 i (Nat.lt_of_lt_of_le hi a1)).trans (a2 i hi)⟩
    · obtain ⟨a1, a2⟩ := buffer_add_keeps s.Buffer c
      obtain ⟨b1, b2⟩ := ih { s with Buffer := (buffer_add s.Buffer c).1 }
      exact ⟨Nat.le_trans a1 b1, fun i hi => (b2 i (Nat.lt_of_lt_of_le hi a1)).trans (a2 i hi)⟩

/-- A buffer that grows and keeps its stored characters stays sealed. -/
theorem sealed_of_keeps (B B2 : serial_buffer) (hs : sealed B)
    (hl : B.tam_buffer ≤ B2.tam_buffer)
    (ha : ∀ i, i < B.tam_buffer → B2.data i = B.data i) : sealed B2 := by
  rcases hs with ⟨p, hp, hz⟩ | h9
  · exact Or.inl ⟨p, Nat.lt_of_lt_of_le hp hl, (ha p hp).trans hz⟩
  · exact Or.inr (Nat.le_trans h9 hl)

/-- A newline seals the buffer: NUL is stored, or the buffer is full. -/
theorem serialEvent_seals (cs : List Nat) :
    ∀ s : State, 10 ∈ cs → sealed (serialEvent s cs).Buffer := by
  induction cs with
  | nil => intro s h; simp at h
  | cons c cs ih =>
    intro s hmem
    unfold serialEvent
    split
    · have hseal : sealed (buffer_add s.Buffer 0).1 := by
        unfold buffer_add
        split
        · exact Or.inl ⟨s.Buffer.tam_buffer, Nat.lt_succ_self _, by simp⟩
        · rename_i hfull
          right
          show 9 ≤ s.Buffer.tam_buffer
          simp only [MAX_BUFFER_SIZE] at hfull
          omega
      obtain ⟨b1, b2⟩ := serialEvent_keeps cs
        { s with Buffer := (buffer_add s.Buffer 0).1, flag_check_command := 1 }
      exact sealed_of_keeps _ _ hseal b1 b2
    · rename_i hc
      have : 10 ∈ cs := by
        rcases List.mem_cons.mp hmem with h | h
        · exact absurd h.symm hc
        · exact h
      exact ih _ this

/-- On a buffer that matches no command the dispatcher only clears
`flag_check_command`: nothing is written and the buffer is not cleaned. -/
theorem loop_no_match (inp : LoopInput) (s : State) (hno : no_match s.Buffer.data) :
    (loop inp s).serial = (loop_keypad inp s).serial ∧
    (loop inp s).eeprom = (loop_keypad inp s).eeprom ∧
    (loop inp s).Buffer = s.Buffer := by
  obtain ⟨c1, c2, c3, c4, c5, c6, c7⟩ := hno
  obtain ⟨hB, _⟩ := loop_keypad_serial_vars inp s
  unfold loop
  generalize loop_keypad inp s = m at hB
  by_cases hF : m.flag_check_command = 1
  · simp [loop_flush, loop_dispatch, cmd_PING, cmd_ID, cmd_MEASURE, cmd_MEMSTATUS, cmd_RESET,
      cmd_RECORD, cmd_GET, hB, hF, c1, c2, c3, c4, c5, c6, c7]
  · simp [loop_flush, loop_dispatch, hB, hF]

/-- Once a sealed buffer matches no command, every later state has a buffer
at least as long, with the same stored characters, that matches no
command. -/
theorem stuck_run (s : State) (hs : sealed s.Buffer) (hno : no_match s.Buffer.data)
    (acts : List Action) :
    ∀ t : State, s.Buffer.tam_buffer ≤ t.Buffer.tam_buffer →
      (∀ i, i < s.Buffer.tam_buffer → t.Buffer.data i = s.Buffer.data i) →
      s.Buffer.tam_buffer ≤ (run t acts).Buffer.tam_buffer ∧
      (∀ i, i < s.Buffer.tam_buffer → (run t acts).Buffer.data i = s.Buffer.data i) := by
  induction acts with
  | nil => intro t h1 h2; exact ⟨h1, h2⟩
  | cons a rest ih =>
    intro t h1 h2
    have hstep : s.Buffer.tam_buffer ≤ (step t a).Buffer.tam_buffer ∧
        (∀ i, i < s.Buffer.tam_buffer → (step t a).Buffer.data i = s.Buffer.data i) := by
      cases a with
      | timer =>
        have hb : (check_modeauto t).Buffer = t.Buffer := by
          unfold check_modeauto; split <;> rfl
        simp only [step]
        rw [hb]; exact ⟨h1, h2⟩
      | receive cs =>
        obtain ⟨b1, b2⟩ := serialEvent_keeps cs t
        simp only [step]
        exact ⟨Nat.le_trans h1 b1, fun i hi => (b2 i (Nat.lt_of_lt_of_le hi h1)).trans (h2 i hi)⟩
      | iterate inp =>
        have hb := (loop_no_match inp t (no_match_sealed s.Buffer t.Buffer.data hs h2 hno)).2.2
        simp only [step]
        rw [hb]; exact ⟨h1, h2⟩
    exact ih (step t a) hstep.1 hstep.2

/-- C18: once a complete line (a newline was received) that matches no
command is in the buffer, in every later state, whatever the timer, the
serial port and the keypad do, `tam_buffer` is at least 1, no `str_cmp` test
of the dispatcher succeeds, and an iteration of `loop` adds nothing to what
the keypad blocks and the automatic measurement write to the serial port and
the EEPROM, and leaves the buffer as it is. -/
theorem unmatched_line_sticks (s0 : State) (cs : List Nat) (acts : List Action)
    (hnl : 10 ∈ cs) (hno : no_match (serialEvent s0 cs).Buffer.data) :
    1 ≤ (run (serialEvent s0 cs) acts).Buffer.tam_buffer ∧
    (serialEvent s0 cs).Buffer.tam_buffer ≤ (run (serialEvent s0 cs) acts).Buffer.tam_buffer ∧
    no_match (run (serialEvent s0 cs) acts).Buffer.data ∧
    ∀ inp : LoopInput,
      (loop inp (run (serialEvent s0 cs) acts)).serial
        = (loop_keypad inp (run (serialEvent s0 cs) acts)).serial ∧
      (loop inp (run (serialEvent s0 cs) acts)).eeprom
        = (loop_keypad inp (run (serialEvent s0 cs) acts)).eeprom ∧
      (loop inp (run (serialEvent s0 cs) acts)).Buffer
        = (run (serialEvent s0 cs) acts).Buffer := by
  have hs : sealed (serialEvent s0 cs).Buffer := serialEvent_seals cs s0 hnl
  obtain ⟨k1, k2⟩ := stuck_run (serialEvent s0 cs) hs hno acts (serialEvent s0 cs)
    (Nat.le_refl _) (fun _ _ => rfl)
  have hno2 : no_match (run (serialEvent s0 cs) acts).Buffer.data :=
    no_match_sealed (serialEvent s0 cs).Buffer _ hs k2 hno
  have hpos : 1 ≤ (serialEvent s0 cs).Buffer.tam_buffer := by
    rcases hs with ⟨p, hp, _⟩ | h9
    · omega
    · omega
  exact ⟨Nat.le_trans hpos k1, k1, hno2, fun inp => loop_no_match inp _ hno2⟩

/-- Witness of `unmatched_line_sticks`: after power-up the line "FOO\n" is
dispatched, then "PING\n" arrives; the next iteration writes nothing. -/
theorem unmatched_line_sticks_witness :
    (loop no_input (run (serialEvent (power_on (fun _ => 0)) (ascii "FOO\n"))
      [Action.iterate no_input, Action.receive (ascii "PING\n")])).serial = [] :=
  (((unmatched_line_sticks (power_on (fun _ => 0)) (ascii "FOO\n")
      [Action.iterate no_input, Action.receive (ascii "PING\n")] (by decide)
      ⟨by decide, by decide, by decide, by decide, by decide, by decide, by decide⟩).2.2.2
      no_input).1).trans (by decide)

/-! ## Automatic measurement -/

/-- The stack layout after a sequence of writes from any occupancy that
leaves room. -/
theorem fs_seq_from (mem : Nat → Nat) (occ : Nat) (h0 : mem 0 = occ) (samples : List Nat) :
    occ + samples.length ≤ 255 → (∀ x ∈ samples, x < 256) →
    filesystem_write_seq mem samples 0 = occ + samples.length ∧
    (∀ (i : Nat) (h : i < samples.length),
      filesystem_write_seq mem samples (occ + i + 1) = samples[i]) ∧
    (∀ a, a ≠ 0 → (a ≤ occ ∨ occ + samples.length < a) →
      filesystem_write_seq mem samples a = mem a) := by
  induction samples using List.reverseRecOn with
  | nil =>
    intro _ _
    refine ⟨by simp [filesystem_write_seq, h0], fun i h => by simp at h, fun a _ _ => rfl⟩
  | append_singleton xs x ih =>
    intro hN hb
    have hlen : occ + (xs.length + 1) ≤ 255 := by simpa using hN
    have hx : x < 256 := hb x (by simp)
    obtain ⟨ih0, ihs, iho⟩ := ih (by omega) (fun y hy => hb y (by simp [hy]))
    have hn : (EEPROM_read (filesystem_write_seq mem xs) 0 + 1) % 256 = occ + xs.length + 1 := by
      simp only [EEPROM_read, Nat.zero_mod, ih0]
      omega
    rw [filesystem_write_seq_snoc]
    refine ⟨?_, ?_, ?_⟩
    · simp only [filesystem_write, EEPROM_write, hn]
      simp
      omega
    · intro i hi
      simp only [filesystem_write, EEPROM_write, hn]
      have hi2 : i < xs.length + 1 := by simpa using hi
      have h1 : ¬ (occ + i + 1 = 0 % 256) := by omega
      rw [if_neg h1]
      by_cases hlt : i < xs.length
      · have h2 : ¬ (occ + i + 1 = (occ + xs.length + 1) % 256) := by omega
        rw [if_neg h2, ihs i hlt, List.getElem_append_left]
      · have hie : i = xs.length := by omega
        subst hie
        have h2 : occ + xs.length + 1 = (occ + xs.length + 1) % 256 := by omega
        rw [if_pos h2]
        simp
        omega
    · intro a ha hout
      simp only [List.length_append, List.length_singleton] at hout
      simp only [filesystem_write, EEPROM_write, hn]
      have h1 : ¬ (a = 0 % 256) := by omega
      have h2 : ¬ (a = (occ + xs.length + 1) % 256) := by omega
      rw [if_neg h1, if_neg h2]
      exact iho a ha (by omega)

/-- The timer firing while armed and then a quiet iteration without a key:
one sample is stored and printed, nothing else changes but `measure`. -/
theorem armed_round (inp : LoopInput) (t : State) (hk : inp.key = NO_KEY)
    (ha : t.mode_auto = 1) (hs : t.flag_star = 0) (hc : t.flag_check_command ≠ 1) :
    loop inp (check_modeauto t) =
      { t with measure := 0,
               eeprom := filesystem_write t.eeprom (auto_sample inp),
               serial := t.serial ++ [utoa (auto_sample inp) ++ [13, 10]] } := by
  have h1 : check_modeauto t = { t with measure := 1 } := by
    unfold check_modeauto; rw [if_pos ha]
  rw [h1]
  unfold loop loop_keypad
  have hsw : loop_switch inp.key { t with measure := 1 } = { t with measure := 1 } := by
    rw [hk]; simp [loop_switch, NO_KEY]
  rw [hsw, loop_commands_idle inp { t with measure := 1 } (by simp only; rw [hs]; decide)]
  simp [loop_measure, loop_dispatch, loop_flush, hc, auto_sample]

/-- While armed, `N` rounds of the timer firing and a quiet iteration without
a key store and print one sample each, in order, and change nothing else. -/
theorem armed_rounds (inps : List LoopInput) :
    ∀ t : State, (∀ inp ∈ inps, inp.key = NO_KEY) →
      t.mode_auto = 1 → t.measure = 0 → t.flag_star = 0 → t.flag_check_command ≠ 1 →
      run t (timer_rounds inps) =
        { t with eeprom := filesystem_write_seq t.eeprom (inps.map auto_sample),
                 serial := t.serial ++
                   inps.map (fun inp => utoa (auto_sample inp) ++ [13, 10]) } := by
  induction inps with
  | nil =>
    intro t _ _ _ _ _
    simp [timer_rounds, run, filesystem_write_seq]
  | cons inp rest ih =>
    intro t hk ha hm hs hc
    have hstep : run t (timer_rounds (inp :: rest)) =
        run (loop inp (check_modeauto t)) (timer_rounds rest) := rfl
    rw [hstep, armed_round inp t (hk inp (by simp)) ha hs hc]
    rw [ih { t with measure := 0,
                    eeprom := filesystem_write t.eeprom (auto_sample inp),
                    serial := t.serial ++ [utoa (auto_sample inp) ++ [13, 10]] }
      (fun i hi => hk i (by simp [hi])) ha rfl hs hc]
    cases t
    simp only at hm
    subst hm
    simp [filesystem_write_seq]

/-- While disarmed with no measurement pending, the timer firing and quiet
iterations without a key store nothing and print nothing. -/
theorem disarmed_idle (acts : List Action) :
    ∀ v : State, (∀ a ∈ acts, idle_action a = true) →
      v.mode_auto ≠ 1 → v.measure ≠ 1 → v.flag_check_command ≠ 1 → v.flag_star = 0 →
      (run v acts).eeprom = v.eeprom ∧ (run v acts).serial = v.serial := by
  induction acts with
  | nil => intro v _ _ _ _ _; exact ⟨rfl, rfl⟩
  | cons a rest ih =>
    intro v hall ha hm hc hs
    have hrest : ∀ b ∈ rest, idle_action b = true := fun b hb => hall b (by simp [hb])
    have hrun : run v (a :: rest) = run (step v a) rest := rfl
    rw [hrun]
    cases a with
    | timer =>
      have h1 : step v Action.timer = { v with measure := 0 } := by
        simp only [step]; unfold check_modeauto; rw [if_neg ha]
      rw [h1]
      exact ih { v with measure := 0 } hrest ha (show (0 : Int) ≠ 1 by decide) hc hs
    | receive cs =>
      have := hall (Action.receive cs) (by simp)
      simp [idle_action] at this
    | iterate inp =>
      have hk : inp.key = NO_KEY := by
        have := hall (Action.iterate inp) (by simp)
        simpa [idle_action] using this
      have h1 : step v (Action.iterate inp) = v := by
        simp only [step]; exact loop_no_key inp v hk hm hc hs
      rw [h1]
      exact ih v hrest ha hm hc hs

/-- From Idle, with no measurement pending and no command line ready, the
keys `#`, `4`, `*` clear `mode_auto` and change nothing else. -/
theorem disarm_keys (r : State) (pre : List LoopInput) (star : LoopInput)
    (hh : r.flag_hashtag = 0) (hn : r.flag_number = 0) (hs : r.flag_star = 0)
    (hm : r.measure ≠ 1) (hc : r.flag_check_command ≠ 1)
    (hpre : keys_of pre = [35, 52]) (hstar : star.key = 42) :
    loop star (loops r pre) = { r with mode_auto := 0 } := by
  have hrun : loops r pre = { r with flag_hashtag := 1, flag_number := ((4 : Nat) : Int) } := by
    rw [loops_hash_digits pre r [4] hpre (by simp) hm hc hs]
    rfl
  rw [hrun, loop_star star { r with flag_hashtag := 1, flag_number := ((4 : Nat) : Int) } 4
    (by simp) hstar hm hc rfl rfl]
  rw [if_neg (by decide), if_neg (by decide), if_neg (by decide)]
  cases r
  simp only at hh hn hs
  subst hh hn hs
  rfl

/-- C11: from the state keypad command 3 leaves (Idle, `mode_auto` at 1, no
measurement pending) with no command line ready and room for `N` more
samples, `N` rounds of the timer firing and an iteration without a key store
the `N` samples in order above the old ones, print one line for each and
change nothing else; after the keys `#`, `4`, `*` with no timer firing in
between, the timer firing and iterations without a key store nothing more and
print nothing more. -/
theorem auto_sampling (t : State) (inps pre : List LoopInput) (star : LoopInput)
    (acts : List Action) (occ : Nat)
    (hh : t.flag_hashtag = 0) (hn : t.flag_number = 0) (hs : t.flag_star = 0)
    (ha : t.mode_auto = 1) (hm : t.measure = 0) (hc : t.flag_check_command ≠ 1)
    (hocc : t.eeprom 0 = occ) (hN : occ + inps.length ≤ 255)
    (hkeys : ∀ inp ∈ inps, inp.key = NO_KEY)
    (hpre : keys_of pre = [35, 52]) (hstar : star.key = 42)
    (hacts : ∀ a ∈ acts, idle_action a = true) :
    run t (timer_rounds inps) =
      { t with eeprom := filesystem_write_seq t.eeprom (inps.map auto_sample),
               serial := t.serial ++
                 inps.map (fun inp => utoa (auto_sample inp) ++ [13, 10]) } ∧
    (run t (timer_rounds inps)).eeprom 0 = occ + inps.length ∧
    (∀ (i : Nat) (h : i < inps.length),
      (run t (timer_rounds inps)).eeprom (occ + i + 1) = auto_sample (inps.get ⟨i, h⟩)) ∧
    (∀ a, a ≠ 0 → (a ≤ occ ∨ occ + inps.length < a) →
      (run t (timer_rounds inps)).eeprom a = t.eeprom a) ∧
    ((run t (timer_rounds inps)).serial).length = t.serial.length + inps.length ∧
    (loop star (loops (run t (timer_rounds inps)) pre)).mode_auto = 0 ∧
    (run (loop star (loops (run t (timer_rounds inps)) pre)) acts).eeprom
      = (run t (timer_rounds inps)).eeprom ∧
    (run (loop star (loops (run t (timer_rounds inps)) pre)) acts).serial
      = (run t (timer_rounds inps)).serial := by
  have hrun := armed_rounds inps t hkeys ha hm hs hc
  have hbytes : ∀ x ∈ inps.map auto_sample, x < 256 := by
    intro x hx
    obtain ⟨inp, _, rfl⟩ := List.mem_map.mp hx
    unfold auto_sample
    exact Nat.mod_lt _ (by decide)
  obtain ⟨l0, l1, l2⟩ := fs_seq_from t.eeprom occ hocc (inps.map auto_sample)
    (by simpa using hN) hbytes
  have e_ee : (run t (timer_rounds inps)).eeprom
      = filesystem_write_seq t.eeprom (inps.map auto_sample) := by rw [hrun]
  have e_se : (run t (timer_rounds inps)).serial
      = t.serial ++ inps.map (fun inp => utoa (auto_sample inp) ++ [13, 10]) := by rw [hrun]
  have r_hh : (run t (timer_rounds inps)).flag_hashtag = 0 := by rw [hrun]; exact hh
  have r_hn : (run t (timer_rounds inps)).flag_number = 0 := by rw [hrun]; exact hn
  have r_hs : (run t (timer_rounds inps)).flag_star = 0 := by rw [hrun]; exact hs
  have r_hm : (run t (timer_rounds inps)).measure ≠ 1 := by
    rw [hrun]; simp only; rw [hm]; decide
  have r_hc : (run t (timer_rounds inps)).flag_check_command ≠ 1 := by rw [hrun]; exact hc
  have hdis := disarm_keys (run t (timer_rounds inps)) pre star r_hh r_hn r_hs r_hm r_hc
    hpre hstar
  have hidle := disarmed_idle acts { run t (timer_rounds inps) with mode_auto := 0 } hacts
    (show (0 : Int) ≠ 1 by decide) r_hm r_hc r_hs
  refine ⟨hrun, ?_, ?_, ?_, ?_, ?_, ?_, ?_⟩
  · rw [e_ee]; simpa using l0
  · intro i h
    rw [e_ee]
    have := l1 i (by simpa using h)
    simpa using this
  · intro a h1 h2
    rw [e_ee]
    exact l2 a h1 (by simpa using h2)
  · rw [e_se]; simp
  · rw [hdis]
  · rw [hdis]; exact hidle.1
  · rw [hdis]; exact hidle.2

/-- Witness of `auto_sampling`: armed after power-up, two rounds with the
analog input at 400 and 800 raise the occupancy from 0 to 2; after
`#`, `4`, `*` the timer and an iteration without a key add nothing. -/
theorem auto_sampling_witness :
    (run { power_on (fun _ => 0) with mode_auto := 1 }
      (timer_rounds [{ no_input with analog_auto := 400 },
        { no_input with analog_auto := 800 }])).eeprom 0 = 2 ∧
    (run (loop { no_input with key := 42 }
        (loops (run { power_on (fun _ => 0) with mode_auto := 1 }
          (timer_rounds [{ no_input with analog_auto := 400 },
            { no_input with analog_auto := 800 }]))
          [{ no_input with key := 35 }, { no_input with key := 52 }]))
      [Action.timer, Action.iterate no_input, Action.timer]).serial
      = (run { power_on (fun _ => 0) with mode_auto := 1 }
          (timer_rounds [{ no_input with analog_auto := 400 },
            { no_input with analog_auto := 800 }])).serial :=
  ⟨(auto_sampling { power_on (fun _ => 0) with mode_auto := 1 }
      [{ no_input with analog_auto := 400 }, { no_input with analog_auto := 800 }]
      [{ no_input with key := 35 }, { no_input with key := 52 }] { no_input with key := 42 }
      [Action.timer, Action.iterate no_input, Action.timer] 0
      rfl rfl rfl rfl rfl (by decide) rfl (by decide) (by decide) (by decide) rfl
      (by decide)).2.1.trans (by decide),
   (auto_sampling { power_on (fun _ => 0) with mode_auto := 1 }
      [{ no_input with analog_auto := 400 }, { no_input with analog_auto := 800 }]
      [{ no_input with key := 35 }, { no_input with key := 52 }] { no_input with key := 42 }
      [Action.timer, Action.iterate no_input, Action.timer] 0
      rfl rfl rfl rfl rfl (by decide) rfl (by decide) (by decide) (by decide) rfl
      (by decide)).2.2.2.2.2.2.2⟩

/-! ## One line, one command -/

/-- No branch of the dispatcher changes the characters of the buffer or the
serial output; the tests that follow a branch read the same characters. -/
theorem cmd_keeps (inp : LoopInput) (f : Frame) :
    ((cmd_PING f).g.Buffer.data = f.g.Buffer.data ∧ (cmd_PING f).g.serial = f.g.serial) ∧
    ((cmd_ID f).g.Buffer.data = f.g.Buffer.data ∧ (cmd_ID f).g.serial = f.g.serial) ∧
    ((cmd_MEASURE inp f).g.Buffer.data = f.g.Buffer.data ∧
      (cmd_MEASURE inp f).g.serial = f.g.serial) ∧
    ((cmd_MEMSTATUS f).g.Buffer.data = f.g.Buffer.data ∧
      (cmd_MEMSTATUS f).g.serial = f.g.serial) ∧
    ((cmd_RESET f).g.Buffer.data = f.g.Buffer.data ∧ (cmd_RESET f).g.serial = f.g.serial) ∧
    ((cmd_RECORD inp f).g.Buffer.data = f.g.Buffer.data ∧
      (cmd_RECORD inp f).g.serial = f.g.serial) ∧
    ((cmd_GET inp f).g.Buffer.data = f.g.Buffer.data ∧ (cmd_GET inp f).g.serial = f.g.serial) := by
  refine ⟨?_, ?_, ?_, ?_, ?_, ?_, ?_⟩
  · unfold cmd_PING; split <;> exact ⟨rfl, rfl⟩
  · unfold cmd_ID; split <;> exact ⟨rfl, rfl⟩
  · unfold cmd_MEASURE; split <;> exact ⟨rfl, rfl⟩
  · unfold cmd_MEMSTATUS; split <;> exact ⟨rfl, rfl⟩
  · unfold cmd_RESET; split <;> exact ⟨rfl, rfl⟩
  · unfold cmd_RECORD; split <;> exact ⟨rfl, rfl⟩
  · unfold cmd_GET; split <;> exact ⟨rfl, rfl⟩

/-- A branch whose test fails does nothing. -/
theorem cmd_miss (inp : LoopInput) (f : Frame) :
    (str_cmp f.g.Buffer.data (lit "PING") 4 = 0 → cmd_PING f = f) ∧
    (str_cmp f.g.Buffer.data (lit "ID") 2 = 0 → cmd_ID f = f) ∧
    (str_cmp f.g.Buffer.data (lit "MEASURE") 7 = 0 → cmd_MEASURE inp f = f) ∧
    (str_cmp f.g.Buffer.data (lit "MEMSTATUS") 9 = 0 → cmd_MEMSTATUS f = f) ∧
    (str_cmp f.g.Buffer.data (lit "RESET") 5 = 0 → cmd_RESET f = f) ∧
    (str_cmp f.g.Buffer.data (lit "RECORD") 5 = 0 → cmd_RECORD inp f = f) ∧
    (str_cmp f.g.Buffer.data (lit "GET") 3 = 0 → cmd_GET inp f = f) := by
  refine ⟨?_, ?_, ?_, ?_, ?_, ?_, ?_⟩
  · intro h; unfold cmd_PING; rw [if_neg (fun hne => hne h)]
  · intro h; unfold cmd_ID; rw [if_neg (fun hne => hne h)]
  · intro h; unfold cmd_MEASURE; rw [if_neg (fun hne => hne h)]
  · intro h; unfold cmd_MEMSTATUS; rw [if_neg (fun hne => hne h)]
  · intro h; unfold cmd_RESET; rw [if_neg (fun hne => hne h)]
  · intro h; unfold cmd_RECORD; rw [if_neg (fun hne => hne h)]
  · intro h; unfold cmd_GET; rw [if_neg (fun hne => hne h)]

/-- The seven branches run in sequence amount to the one branch whose test
succeeds on the frame they start from, or to nothing when none does. -/
theorem dispatch_chain_one (inp : LoopInput) (f : Frame) :
    (no_match f.g.Buffer.data ∧
      cmd_GET inp (cmd_RECORD inp (cmd_RESET (cmd_MEMSTATUS (cmd_MEASURE inp
        (cmd_ID (cmd_PING f)))))) = f) ∨
    (str_cmp f.g.Buffer.data (lit "PING") 4 = 1 ∧
      cmd_GET inp (cmd_RECORD inp (cmd_RESET (cmd_MEMSTATUS (cmd_MEASURE inp
        (cmd_ID (cmd_PING f)))))) = cmd_PING f) ∨
    (str_cmp f.g.Buffer.data (lit "ID") 2 = 1 ∧
      cmd_GET inp (cmd_RECORD inp (cmd_RESET (cmd_MEMSTATUS (cmd_MEASURE inp
        (cmd_ID (cmd_PING f)))))) = cmd_ID f) ∨
    (str_cmp f.g.Buffer.data (lit "MEASURE") 7 = 1 ∧
      cmd_GET inp (cmd_RECORD inp (cmd_RESET (cmd_MEMSTATUS (cmd_MEASURE inp
        (cmd_ID (cmd_PING f)))))) = cmd_MEASURE inp f) ∨
    (str_cmp f.g.Buffer.data (lit "MEMSTATUS") 9 = 1 ∧
      cmd_GET inp (cmd_RECORD inp (cmd_RESET (cmd_MEMSTATUS (cmd_MEASURE inp
        (cmd_ID (cmd_PING f)))))) = cmd_MEMSTATUS f) ∨
    (str_cmp f.g.Buffer.data (lit "RESET") 5 = 1 ∧
      cmd_GET inp (cmd_RECORD inp (cmd_RESET (cmd_MEMSTATUS (cmd_MEASURE inp
        (cmd_ID (cmd_PING f)))))) = cmd_RESET f) ∨
    (str_cmp f.g.Buffer.data (lit "RECORD") 5 = 1 ∧
      cmd_GET inp (cmd_RECORD inp (cmd_RESET (cmd_MEMSTATUS (cmd_MEASURE inp
        (cmd_ID (cmd_PING f)))))) = cmd_RECORD inp f) ∨
    (str_cmp f.g.Buffer.data (lit "GET") 3 = 1 ∧
      cmd_GET inp (cmd_RECORD inp (cmd_RESET (cmd_MEMSTATUS (cmd_MEASURE inp
        (cmd_ID (cmd_PING f)))))) = cmd_GET inp f) := by
  have oh : ∀ a b c d e g h : Int, (a = 0 ∨ a = 1) → (b = 0 ∨ b = 1) → (c = 0 ∨ c = 1) →
      (d = 0 ∨ d = 1) → (e = 0 ∨ e = 1) → (g = 0 ∨ g = 1) → (h = 0 ∨ h = 1) →
      a + b + c + d + e + g + h ≤ 1 →
      (a = 1 → b = 0 ∧ c = 0 ∧ d = 0 ∧ e = 0 ∧ g = 0 ∧ h = 0) ∧
      (b = 1 → c = 0 ∧ d = 0 ∧ e = 0 ∧ g = 0 ∧ h = 0) ∧
      (c = 1 → d = 0 ∧ e = 0 ∧ g = 0 ∧ h = 0) ∧
      (d = 1 → e = 0 ∧ g = 0 ∧ h = 0) ∧
      (e = 1 → g = 0 ∧ h = 0) ∧
      (g = 1 → h = 0) := by
    intro a b c d e g h ha hb hc hd he hg hh hsum
    refine ⟨fun _ => ?_, fun _ => ?_, fun _ => ?_, fun _ => ?_, fun _ => ?_, fun _ => ?_⟩ <;>
      omega
  obtain ⟨⟨z1, z2, z3, z4, z5, z6, z7⟩, hsum⟩ := str_cmp_tests_exclusive f.g.Buffer.data
  obtain ⟨o1, o2, o3, o4, o5, o6⟩ := oh _ _ _ _ _ _ _ z1 z2 z3 z4 z5 z6 z7 hsum
  obtain ⟨m1, m2, m3, m4, m5, m6, m7⟩ := cmd_miss inp f
  rcases z1 with h1 | h1
  · rw [m1 h1]
    rcases z2 with h2 | h2
    · rw [m2 h2]
      rcases z3 with h3 | h3
      · rw [m3 h3]
        rcases z4 with h4 | h4
        · rw [m4 h4]
          rcases z5 with h5 | h5
          · rw [m5 h5]
            rcases z6 with h6 | h6
            · rw [m6 h6]
              rcases z7 with h7 | h7
              · rw [m7 h7]
                exact Or.inl ⟨⟨h1, h2, h3, h4, h5, h6, h7⟩, rfl⟩
              · exact Or.inr (Or.inr (Or.inr (Or.inr (Or.inr (Or.inr (Or.inr ⟨h7, rfl⟩))))))
            · have e7 : str_cmp f.g.Buffer.data (lit "GET") 3 = 0 := (o6 h6)
              have k := (cmd_keeps inp f).2.2.2.2.2.1.1
              rw [(cmd_miss inp (cmd_RECORD inp f)).2.2.2.2.2.2 (by rw [k]; exact e7)]
              exact Or.inr (Or.inr (Or.inr (Or.inr (Or.inr (Or.inr (Or.inl ⟨h6, rfl⟩))))))
          · have e6 : str_cmp f.g.Buffer.data (lit "RECORD") 5 = 0 := (o5 h5).1
            have e7 : str_cmp f.g.Buffer.data (lit "GET") 3 = 0 := (o5 h5).2
            have k := (cmd_keeps inp f).2.2.2.2.1.1
            rw [(cmd_miss inp (cmd_RESET f)).2.2.2.2.2.1 (by rw [k]; exact e6),
              (cmd_miss inp (cmd_RESET f)).2.2.2.2.2.2 (by rw [k]; exact e7)]
            exact Or.inr (Or.inr (Or.inr (Or.inr (Or.inr (Or.inl ⟨h5, rfl⟩)))))
        · have e5 : str_cmp f.g.Buffer.data (lit "RESET") 5 = 0 := (o4 h4).1
          have e6 : str_cmp f.g.Buffer.data (lit "RECORD") 5 = 0 := (o4 h4).2.1
          have e7 : str_cmp f.g.Buffer.data (lit "GET") 3 = 0 := (o4 h4).2.2
          have k := (cmd_keeps inp f).2.2.2.1.1
          rw [(cmd_miss inp (cmd_MEMSTATUS f)).2.2.2.2.1 (by rw [k]; exact e5),
            (cmd_miss inp (cmd_MEMSTATUS f)).2.2.2.2.2.1 (by rw [k]; exact e6),
            (cmd_miss inp (cmd_MEMSTATUS f)).2.2.2.2.2.2 (by rw [k]; exact e7)]
          exact Or.inr (Or.inr (Or.inr (Or.inr (Or.inl ⟨h4, rfl⟩))))
      · have e4 : str_cmp f.g.Buffer.data (lit "MEMSTATUS") 9 = 0 := (o3 h3).1
        have e5 : str_cmp f.g.Buffer.data (lit "RESET") 5 = 0 := (o3 h3).2.1
        have e6 : str_cmp f.g.Buffer.data (lit "RECORD") 5 = 0 := (o3 h3).2.2.1
        have e7 : str_cmp f.g.Buffer.data (lit "GET") 3 = 0 := (o3 h3).2.2.2
        have k := (cmd_keeps inp f).2.2.1.1
        rw [(cmd_miss inp (cmd_MEASURE inp f)).2.2.2.1 (by rw [k]; exact e4),
          (cmd_miss inp (cmd_MEASURE inp f)).2.2.2.2.1 (by rw [k]; exact e5),
          (cmd_miss inp (cmd_MEASURE inp f)).2.2.2.2.2.1 (by rw [k]; exact e6),
          (cmd_miss inp (cmd_MEASURE inp f)).2.2.2.2.2.2 (by rw [k]; exact e7)]
        exact Or.inr (Or.inr (Or.inr (Or.inl ⟨h3, rfl⟩)))
    · have e3 : str_cmp f.g.Buffer.data (lit "MEASURE") 7 = 0 := (o2 h2).1
      have e4 : str_cmp f.g.Buffer.data (lit "MEMSTATUS") 9 = 0 := (o2 h2).2.1
      have e5 : str_cmp f.g.Buffer.data (lit "RESET") 5 = 0 := (o2 h2).2.2.1
      have e6 : str_cmp f.g.Buffer.data (lit "RECORD") 5 = 0 := (o2 h2).2.2.2.1
      have e7 : str_cmp f.g.Buffer.data (lit "GET") 3 = 0 := (o2 h2).2.2.2.2
      have k := (cmd_keeps inp f).2.1.1
      rw [(cmd_miss inp (cmd_ID f)).2.2.1 (by rw [k]; exact e3),
        (cmd_miss inp (cmd_ID f)).2.2.2.1 (by rw [k]; exact e4),
        (cmd_miss inp (cmd_ID f)).2.2.2.2.1 (by rw [k]; exact e5),
        (cmd_miss inp (cmd_ID f)).2.2.2.2.2.1 (by rw [k]; exact e6),
        (cmd_miss inp (cmd_ID f)).2.2.2.2.2.2 (by rw [k]; exact e7)]
      exact Or.inr (Or.inr (Or.inl ⟨h2, rfl⟩))
  · have e2 : str_cmp f.g.Buffer.data (lit "ID") 2 = 0 := (o1 h1).1
    have e3 : str_cmp f.g.Buffer.data (lit "MEASURE") 7 = 0 := (o1 h1).2.1
    have e4 : str_cmp f.g.Buffer.data (lit "MEMSTATUS") 9 = 0 := (o1 h1).2.2.1
    have e5 : str_cmp f.g.Buffer.data (lit "RESET") 5 = 0 := (o1 h1).2.2.2.1
    have e6 : str_cmp f.g.Buffer.data (lit "RECORD") 5 = 0 := (o1 h1).2.2.2.2.1
    have e7 : str_cmp f.g.Buffer.data (lit "GET") 3 = 0 := (o1 h1).2.2.2.2.2
    have k := (cmd_keeps inp f).1.1
    rw [(cmd_miss inp (cmd_PING f)).2.1 (by rw [k]; exact e2),
      (cmd_miss inp (cmd_PING f)).2.2.1 (by rw [k]; exact e3),
      (cmd_miss inp (cmd_PING f)).2.2.2.1 (by rw [k]; exact e4),
      (cmd_miss inp (cmd_PING f)).2.2.2.2.1 (by rw [k]; exact e5),
      (cmd_miss inp (cmd_PING f)).2.2.2.2.2.1 (by rw [k]; exact e6),
      (cmd_miss inp (cmd_PING f)).2.2.2.2.2.2 (by rw [k]; exact e7)]
    exact Or.inr (Or.inl ⟨h1, rfl⟩)

/-- C19: on every buffer each of the seven `str_cmp` tests of the dispatcher
returns 0 or 1 and at most one of them returns 1; so an iteration of `loop`
with a command line ready runs, after the keypad blocks and the automatic
measurement, the body of at most one branch: either no test succeeds and only
`flag_check_command` is cleared, or exactly one test succeeds and the state
`loop` leaves is the one that branch alone produces, with at most one string
written to the serial port. -/
theorem dispatch_exclusive (data : Nat → Nat) (inp : LoopInput) (s : State)
    (hc : s.flag_check_command = 1) :
    ((str_cmp data (lit "PING") 4 = 0 ∨ str_cmp data (lit "PING") 4 = 1) ∧
     (str_cmp data (lit "ID") 2 = 0 ∨ str_cmp data (lit "ID") 2 = 1) ∧
     (str_cmp data (lit "MEASURE") 7 = 0 ∨ str_cmp data (lit "MEASURE") 7 = 1) ∧
     (str_cmp data (lit "MEMSTATUS") 9 = 0 ∨ str_cmp data (lit "MEMSTATUS") 9 = 1) ∧
     (str_cmp data (lit "RESET") 5 = 0 ∨ str_cmp data (lit "RESET") 5 = 1) ∧
     (str_cmp data (lit "RECORD") 5 = 0 ∨ str_cmp data (lit "RECORD") 5 = 1) ∧
     (str_cmp data (lit "GET") 3 = 0 ∨ str_cmp data (lit "GET") 3 = 1)) ∧
    str_cmp data (lit "PING") 4 + str_cmp data (lit "ID") 2 + str_cmp data (lit "MEASURE") 7
      + str_cmp data (lit "MEMSTATUS") 9 + str_cmp data (lit "RESET") 5
      + str_cmp data (lit "RECORD") 5 + str_cmp data (lit "GET") 3 ≤ 1 ∧
    ((no_match s.Buffer.data ∧
        loop inp s = { loop_keypad inp s with flag_check_command := 0 }) ∨
     (str_cmp s.Buffer.data (lit "PING") 4 = 1 ∧
        loop inp s =
          { loop_keypad inp s with
            flag_check_command := 0,
            serial := (loop_keypad inp s).serial ++ [ascii "PONG\n"],
            Buffer := buffer_clean s.Buffer }) ∨
     (str_cmp s.Buffer.data (lit "ID") 2 = 1 ∧
        loop inp s =
          { loop_keypad inp s with
            flag_check_command := 0,
            serial := (loop_keypad inp s).serial ++ [ascii "ISA E JULIA\n"],
            Buffer := buffer_clean s.Buffer }) ∨
     (str_cmp s.Buffer.data (lit "MEASURE") 7 = 1 ∧
        loop inp s =
          { loop_keypad inp s with
            flag_check_command := 0,
            serial := (loop_keypad inp s).serial ++
              [utoa ((inp.analog_measure / 4) % 256) ++ ascii "\n"],
            Buffer := buffer_clean s.Buffer }) ∨
     (str_cmp s.Buffer.data (lit "MEMSTATUS") 9 = 1 ∧
        loop inp s =
          { loop_keypad inp s with
            flag_check_command := 0,
            serial := (loop_keypad inp s).serial ++
              [utoa (EEPROM_read (loop_keypad inp s).eeprom 0) ++ ascii "\n"],
            Buffer := buffer_clean s.Buffer }) ∨
     (str_cmp s.Buffer.data (lit "RESET") 5 = 1 ∧
        loop inp s =
          { loop_keypad inp s with
            flag_check_command := 0,
            eeprom := EEPROM_write (loop_keypad inp s).eeprom 0 0,
            Buffer := buffer_clean s.Buffer }) ∨
     (str_cmp s.Buffer.data (lit "RECORD") 5 = 1 ∧
        loop inp s =
          { loop_keypad inp s with
            flag_check_command := 0,
            eeprom := filesystem_write (loop_keypad inp s).eeprom
              ((inp.analog_record / 4) % 256),
            serial := (loop_keypad inp s).serial ++ [inp.out_buffer],
            Buffer := buffer_clean s.Buffer }) ∨
     (str_cmp s.Buffer.data (lit "GET") 3 = 1 ∧
        loop inp s =
          { loop_keypad inp s with
            flag_check_command := 0,
            serial := (loop_keypad inp s).serial ++
              [ascii "EEPROM value["
                ++ fmt_d ((sscanf_s_d (c_str s.Buffer.data MAX_BUFFER_SIZE 0)).getD inp.x)
                ++ ascii "] = "
                ++ utoa (EEPROM_read (loop_keypad inp s).eeprom
                    (((sscanf_s_d (c_str s.Buffer.data MAX_BUFFER_SIZE 0)).getD inp.x)
                      % 256).toNat)
                ++ ascii "\n"],
            Buffer := buffer_clean s.Buffer })) ∧
    ((loop inp s).serial = (loop_keypad inp s).serial ∨
     ∃ resp, (loop inp s).serial = (loop_keypad inp s).serial ++ [resp]) := by
  obtain ⟨hz, hsum⟩ := str_cmp_tests_exclusive data
  obtain ⟨hB, hF⟩ := loop_keypad_serial_vars inp s
  rw [hc] at hF
  have hloop : loop inp s = loop_flush (dispatch_done
      (cmd_GET inp (cmd_RECORD inp (cmd_RESET (cmd_MEMSTATUS (cmd_MEASURE inp (cmd_ID
        (cmd_PING { g := loop_keypad inp s, out_buffer := inp.out_buffer,
                    flag_write := 0 })))))))) := by
    unfold loop loop_dispatch
    rw [if_pos hF]
    rfl
  have hchain := dispatch_chain_one inp
    { g := loop_keypad inp s, out_buffer := inp.out_buffer, flag_write := 0 }
  simp only [hB] at hchain
  have hcases :
      (no_match s.Buffer.data ∧
        loop inp s = { loop_keypad inp s with flag_check_command := 0 }) ∨
      (str_cmp s.Buffer.data (lit "PING") 4 = 1 ∧
        loop inp s =
          { loop_keypad inp s with
            flag_check_command := 0,
            serial := (loop_keypad inp s).serial ++ [ascii "PONG\n"],
            Buffer := buffer_clean s.Buffer }) ∨
      (str_cmp s.Buffer.data (lit "ID") 2 = 1 ∧
        loop inp s =
          { loop_keypad inp s with
            flag_check_command := 0,
            serial := (loop_keypad inp s).serial ++ [ascii "ISA E JULIA\n"],
            Buffer := buffer_clean s.Buffer }) ∨
      (str_cmp s.Buffer.data (lit "MEASURE") 7 = 1 ∧
        loop inp s =
          { loop_keypad inp s with
            flag_check_command := 0,
            serial := (loop_keypad inp s).serial ++
              [utoa ((inp.analog_measure / 4) % 256) ++ ascii "\n"],
            Buffer := buffer_clean s.Buffer }) ∨
      (str_cmp s.Buffer.data (lit "MEMSTATUS") 9 = 1 ∧
        loop inp s =
          { loop_keypad inp s with
            flag_check_command := 0,
            serial := (loop_keypad inp s).serial ++
              [utoa (EEPROM_read (loop_keypad inp s).eeprom 0) ++ ascii "\n"],
            Buffer := buffer_clean s.Buffer }) ∨
      (str_cmp s.Buffer.data (lit "RESET") 5 = 1 ∧
        loop inp s =
          { loop_keypad inp s with
            flag_check_command := 0,
            eeprom := EEPROM_write (loop_keypad inp s).eeprom 0 0,
            Buffer := buffer_clean s.Buffer }) ∨
      (str_cmp s.Buffer.data (lit "RECORD") 5 = 1 ∧
        loop inp s =
          { loop_keypad inp s with
            flag_check_command := 0,
            eeprom := filesystem_write (loop_keypad inp s).eeprom
              ((inp.analog_record / 4) % 256),
            serial := (loop_keypad inp s).serial ++ [inp.out_buffer],
            Buffer := buffer_clean s.Buffer }) ∨
      (str_cmp s.Buffer.data (lit "GET") 3 = 1 ∧
        loop inp s =
          { loop_keypad inp s with
            flag_check_command := 0,
            serial := (loop_keypad inp s).serial ++
              [ascii "EEPROM value["
                ++ fmt_d ((sscanf_s_d (c_str s.Buffer.data MAX_BUFFER_SIZE 0)).getD inp.x)
                ++ ascii "] = "
                ++ utoa (EEPROM_read (loop_keypad inp s).eeprom
                    (((sscanf_s_d (c_str s.Buffer.data MAX_BUFFER_SIZE 0)).getD inp.x)
                      % 256).toNat)
                ++ ascii "\n"],
            Buffer := buffer_clean s.Buffer }) := by
    rw [hloop]
    generalize loop_keypad inp s = m at hB hF hchain
    rcases hchain with ⟨h, e⟩ | ⟨h, e⟩ | ⟨h, e⟩ | ⟨h, e⟩ | ⟨h, e⟩ | ⟨h, e⟩ | ⟨h, e⟩ | ⟨h, e⟩
    · left
      rw [e]
      exact ⟨h, by simp [loop_flush, dispatch_done]⟩
    · right; left
      rw [e]
      exact ⟨h, by simp [loop_flush, dispatch_done, cmd_PING, hB, h]⟩
    · right; right; left
      rw [e]
      exact ⟨h, by simp [loop_flush, dispatch_done, cmd_ID, hB, h]⟩
    · right; right; right; left
      rw [e]
      refine ⟨h, ?_⟩
      have hv : fmt_d ((inp.analog_measure : Int) / 4 % 256)
          = utoa (inp.analog_measure / 4 % 256) := by
        have hn := fmt_d_nat (inp.analog_measure / 4 % 256)
        push_cast at hn
        exact hn
      simp [loop_flush, dispatch_done, cmd_MEASURE, hB, h, hv]
    · right; right; right; right; left
      rw [e]
      refine ⟨h, ?_⟩
      simp [loop_flush, dispatch_done, cmd_MEMSTATUS, hB, h, fmt_d_nat]
    · right; right; right; right; right; left
      rw [e]
      exact ⟨h, by simp [loop_flush, dispatch_done, cmd_RESET, hB, h]⟩
    · right; right; right; right; right; right; left
      rw [e]
      exact ⟨h, by simp [loop_flush, dispatch_done, cmd_RECORD, hB, h]⟩
    · right; right; right; right; right; right; right
      rw [e]
      refine ⟨h, ?_⟩
      simp [loop_flush, dispatch_done, cmd_GET, hB, h, fmt_d_nat]
  refine ⟨hz, hsum, hcases, ?_⟩
  rcases hcases with ⟨_, e⟩ | ⟨_, e⟩ | ⟨_, e⟩ | ⟨_, e⟩ | ⟨_, e⟩ | ⟨_, e⟩ | ⟨_, e⟩ | ⟨_, e⟩
  · left; rw [e]
  · right; exact ⟨_, by rw [e]⟩
  · right; exact ⟨_, by rw [e]⟩
  · right; exact ⟨_, by rw [e]⟩
  · right; exact ⟨_, by rw [e]⟩
  · left; rw [e]
  · right; exact ⟨_, by rw [e]⟩
  · right; exact ⟨_, by rw [e]⟩

/-- Witness of `dispatch_exclusive`: the line "RECORD\n" received after
power-up; the iteration that dispatches it writes at most one string. -/
theorem dispatch_exclusive_witness :
    (loop no_input (serialEvent (power_on (fun _ => 0)) (ascii "RECORD\n"))).serial
      = (loop_keypad no_input (serialEvent (power_on (fun _ => 0)) (ascii "RECORD\n"))).serial ∨
    ∃ resp,
      (loop no_input (serialEvent (power_on (fun _ => 0)) (ascii "RECORD\n"))).serial
        = (loop_keypad no_input
            (serialEvent (power_on (fun _ => 0)) (ascii "RECORD\n"))).serial ++ [resp] :=
  (dispatch_exclusive (lit "RECORD") no_input
    (serialEvent (power_on (fun _ => 0)) (ascii "RECORD\n")) (by decide)).2.2.2

end Datalogger
